import Mathlib

/-!
# Verification of the `air_rs` ADS-B receiver core

This file gives a shallow embedding in Lean 4 of the parts of the `air_rs`
Rust source that the specification claims talk about, and proves (or
refutes) each claim against that embedding.

Modelling conventions:

* Rust `u8`/`u16`/`u32` values are modelled as `Nat`; wherever overflow or
  wrap-around can matter the reduction modulo `2^w` is written explicitly.
* Rust `f64` arithmetic on CPR values is modelled over `ℚ`. For every
  concrete input used in a theorem below the corresponding `f64`
  computation is exact (all intermediate values are dyadic rationals with
  short mantissas), so the rational model agrees bit-for-bit with the
  Rust code on those inputs.
* The transcendental core of `calc_num_zones` (the `cos`/`acos` formula
  computing the NL lookup) is not shallowly embeddable; it is threaded
  through the embedding as an explicit function parameter `nlCore : ℚ → ℕ`.
  Theorems either hold for every `nlCore` or carry a hypothesis pinning
  its value at the concrete latitude in question (those values are fixed
  by the repository's own unit tests, e.g. `calc_num_zones(52.2572...) = 36`).
* The truncating float-to-int scaling `(x as f32 * 0.9) as u32` of the
  preamble threshold is likewise threaded as a parameter `derate : ℕ → ℕ`;
  no claim depends on its value (the threshold is unused or only compared
  against magnitudes that are universally quantified).
* Rust slice indexing can panic; functions that index are modelled with
  an explicit `RunRes` result that distinguishes a panic from a regular
  `None`/`Some` return.
-/

/-- Result of running a Rust function that may index out of bounds
(`panicked`), return `None` (`rejected`) or return `Some a` (`ok a`). -/
inductive RunRes (α : Type) where
  | panicked : RunRes α
  | rejected : RunRes α
  | ok : α → RunRes α
deriving DecidableEq, Repr

namespace Demod

/-! ## `src/adsb/demod.rs` -/

/-- Low (gap) sample indices of the Mode S preamble, `demod.rs` line 23. -/
def preambleLows : List ℕ := [1, 3, 4, 5, 6, 8, 10, 11, 12, 13, 14, 15]

/-- High (pulse) sample indices of the Mode S preamble, `demod.rs` line 24. -/
def preambleHighs : List ℕ := [0, 2, 7, 9]

/-- Low sample indices of the DF=17 first-byte shape, `demod.rs` line 45. -/
def dfLows : List ℕ := [1, 2, 4, 6, 9]

/-- High sample indices of the DF=17 first-byte shape, `demod.rs` line 46. -/
def dfHighs : List ℕ := [0, 3, 5, 7, 8]

/-- Rust `check_for_adsb_packet` (`demod.rs` lines 17-57): gate a 32-sample
magnitude window.  The nested `for` loops return `None` as soon as some
high-index magnitude is strictly below some low-index magnitude
(equal magnitudes pass), first over the preamble index pairs, then over
the DF-shape index pairs shifted by 16; otherwise the minimum of the
high-index magnitudes (`min` starts at `u32::MAX`) is derated by the f32
multiplication `(min as f32 * 0.9) as u32`, modelled by the parameter
`derate`. -/
def check_for_adsb_packet (derate : ℕ → ℕ) (buf : List ℕ) :
    Option (ℕ × ℤ × ℤ) :=
  if preambleHighs.any fun high =>
      preambleLows.any fun low => buf.getD high 0 < buf.getD low 0 then
    none
  else
    let min := preambleHighs.foldl
      (fun m high => if buf.getD high 0 < m then buf.getD high 0 else m)
      (2 ^ 32 - 1)
    if dfHighs.any fun high =>
        dfLows.any fun low => buf.getD (high + 16) 0 < buf.getD (low + 16) 0 then
      none
    else
      some (derate min, 0, 0)

end Demod

/-- C4 (amended): for every 32-sample magnitude window, the preamble
gate returns `Some` iff every magnitude at a low index is **less than or
equal to** every magnitude at a high index — both for the preamble index
pairs and for the DF-shape pairs 16 samples later.  The comparison is
non-strict: windows in which a high-index magnitude exactly equals a
low-index magnitude are accepted, not rejected (the claim's strict
version is refuted by `claim_C4_counterexample`). -/
theorem claim_C4_preamble_gate (derate : ℕ → ℕ) (buf : List ℕ)
    (hlen : buf.length = 32) :
    (Demod.check_for_adsb_packet derate buf).isSome ↔
      ((∀ high ∈ Demod.preambleHighs, ∀ low ∈ Demod.preambleLows,
          buf.getD low 0 ≤ buf.getD high 0) ∧
        (∀ high ∈ Demod.dfHighs, ∀ low ∈ Demod.dfLows,
          buf.getD (low + 16) 0 ≤ buf.getD (high + 16) 0)) := by
  unfold Demod.check_for_adsb_packet
  by_cases h1 : Demod.preambleHighs.any fun high =>
      Demod.preambleLows.any fun low => buf.getD high 0 < buf.getD low 0
  · simp only [h1, if_true, Option.isSome_none]
    simp only [List.any_eq_true, decide_eq_true_eq] at h1
    obtain ⟨hi, hhi, lo, hlo, hlt⟩ := h1
    constructor
    · intro h; cases h
    · rintro ⟨ha, -⟩
      exact absurd (ha hi hhi lo hlo) (not_le.mpr hlt)
  · simp only [h1, if_false]
    simp only [List.any_eq_true, decide_eq_true_eq, not_exists, not_lt] at h1
    push_neg at h1
    by_cases h2 : Demod.dfHighs.any fun high =>
        Demod.dfLows.any fun low =>
          buf.getD (high + 16) 0 < buf.getD (low + 16) 0
    · simp only [h2, if_true, Option.isSome_none]
      simp only [List.any_eq_true, decide_eq_true_eq] at h2
      obtain ⟨hi, hhi, lo, hlo, hlt⟩ := h2
      constructor
      · intro h; cases h
      · rintro ⟨-, hb⟩
        exact absurd (hb hi hhi lo hlo) (not_le.mpr hlt)
    · simp only [h2, if_false, Option.isSome_some]
      simp only [List.any_eq_true, decide_eq_true_eq] at h2
      push_neg at h2
      constructor
      · intro _
        refine ⟨fun hi hhi lo hlo => ?_, fun hi hhi lo hlo => ?_⟩
        · exact h1 hi hhi lo hlo
        · exact h2 hi hhi lo hlo
      · intro _; rfl

/-- C4 counterexample: the all-equal 32-sample window (every magnitude
7) has a high-index magnitude exactly equal to a low-index magnitude,
yet `check_for_adsb_packet` accepts it — refuting the claim that the
gate returns `Some` only when every low is strictly below every high
and that exact ties are rejected. -/
theorem claim_C4_counterexample :
    (Demod.check_for_adsb_packet (fun n => 9 * n / 10)
        (List.replicate 32 7)).isSome = true ∧
      (List.replicate 32 7).getD 0 0 = (List.replicate 32 7).getD 1 0 := by
  constructor
  · decide
  · decide

/-- C4 witness: the amended gate characterisation applied to the
all-equal window of magnitude 7. -/
theorem claim_C4_witness :
    (Demod.check_for_adsb_packet (fun n => 9 * n / 10)
        (List.replicate 32 7)).isSome ↔
      ((∀ high ∈ Demod.preambleHighs, ∀ low ∈ Demod.preambleLows,
          (List.replicate 32 7).getD low 0 ≤ (List.replicate 32 7).getD high 0) ∧
        (∀ high ∈ Demod.dfHighs, ∀ low ∈ Demod.dfLows,
          (List.replicate 32 7).getD (low + 16) 0 ≤
            (List.replicate 32 7).getD (high + 16) 0)) :=
  claim_C4_preamble_gate (fun n => 9 * n / 10) (List.replicate 32 7) (by decide)

namespace Demod

/-- One step of the per-byte loop shared by both Manchester extractors:
`bits` is the list of remaining bit positions of the current 16-sample
block (the source's `for bit in 0..8`), `symbol` and `errors` the loop
state, and `classify` decides the `(first, second)` chip pair from the
two magnitude samples.  A failed index is a panic; a third ambiguous
pair in the block rejects (`if errors > 2 { return None }` immediately
after the increment, `demod.rs` lines 117-121 and 158-162). -/
def manchesterBits (buf : List ℕ) (classify : ℕ → ℕ → ℕ × ℕ)
    (block_start : ℕ) : List ℕ → ℕ → ℕ → RunRes ℕ
  | [], symbol, _ => .ok symbol
  | bit :: rest, symbol, errors =>
    let i := block_start + bit * 2
    match buf.get? i, buf.get? (i + 1) with
    | some a, some b =>
      let fs := classify a b
      if fs.1 ≠ fs.2 then
        manchesterBits buf classify block_start rest
          (symbol ||| (fs.1 <<< (14 - bit * 2)) ||| (fs.2 <<< (15 - bit * 2)))
          errors
      else if errors + 1 > 2 then .rejected
      else manchesterBits buf classify block_start rest symbol (errors + 1)
    | _, _ => .panicked

/-- The block starts `(0..buf_len).step_by(16)` of the extractor loops. -/
def blockStarts (len : ℕ) : List ℕ := (List.range ((len + 15) / 16)).map (· * 16)

/-- The outer per-block loop of both extractors: run the 8-bit inner loop
with `symbol = 0, errors = 0` for each block start and collect the
symbols (`errors` is reset to 0 after each pushed symbol). -/
def manchesterBlocks (buf : List ℕ) (classify : ℕ → ℕ → ℕ × ℕ)
    (acc : List ℕ) : List ℕ → RunRes (List ℕ)
  | [] => .ok acc
  | bs :: rest =>
    match manchesterBits buf classify bs (List.range 8) 0 0 with
    | .ok symbol => manchesterBlocks buf classify (acc ++ [symbol]) rest
    | .rejected => .rejected
    | .panicked => .panicked

/-- The relative classifier of `extract_manchester_relative`
(`demod.rs` lines 106-112): `if buf[i] > buf[i+1] { first = 1; second = 0 }
else { first = 0; second = 1 }`. -/
def crel : ℕ → ℕ → ℕ × ℕ := fun a b => if a > b then (1, 0) else (0, 1)

/-- The threshold classifier of `extract_manchester_threshold`
(`demod.rs` lines 152-153): `first = buf[i] > high; second = buf[i+1] > high`
(booleans rendered as the bits the source shifts into `symbol`). -/
def cthr (high : ℕ) : ℕ → ℕ → ℕ × ℕ := fun a b =>
  ((if a > high then 1 else 0), (if b > high then 1 else 0))

/-- Rust `extract_manchester_relative` (`demod.rs` lines 92-131): the chip pair
is classified by comparing the two samples to each other,
`if buf[i] > buf[i+1] { first = 1; second = 0 } else { first = 0; second = 1 }`;
the `high` threshold argument is unused. -/
def extract_manchester_relative (buf : List ℕ) (_high : ℕ) : RunRes (List ℕ) :=
  manchesterBlocks buf crel [] (blockStarts buf.length)

/-- Rust `extract_manchester_threshold` (`demod.rs` lines 141-172): the chip
pair is classified by comparing each sample to the threshold,
`first = buf[i] > high; second = buf[i+1] > high` (booleans rendered as
the bits the source shifts into `symbol`). -/
def extract_manchester_threshold (buf : List ℕ) (high : ℕ) : RunRes (List ℕ) :=
  manchesterBlocks buf (cthr high) [] (blockStarts buf.length)

/-- Rust `decode_packet` (`demod.rs` lines 179-200): each 16-bit symbol is read
as 8 Manchester pairs `(hi, lo)`; `(0,1)` sets the bit, every other pair
leaves it clear.  The function always returns `Some`. -/
def decode_packet (raw_buf : List ℕ) : Option (List ℕ) :=
  some <| raw_buf.map fun encoded =>
    (List.range 8).foldl
      (fun byte i =>
        let hi := (encoded >>> (15 - i * 2)) &&& 1
        let lo := (encoded >>> (14 - i * 2)) &&& 1
        if hi = 0 ∧ lo = 1 then byte ||| (1 <<< (7 - i)) else byte)
      0

/-- Number of ambiguous chip pairs of the 16-sample block starting at
`bs` under the threshold rule: pairs whose two samples are on the same
side of `high`. -/
def threshAmb (buf : List ℕ) (high bs : ℕ) : ℕ :=
  ((List.range 8).filter fun bit =>
    decide (buf.getD (bs + bit * 2) 0 > high) =
      decide (buf.getD (bs + bit * 2 + 1) 0 > high)).length

end Demod

namespace Crc

/-! ## `src/adsb/crc.rs` -/

/-- The Mode S generator polynomial bit pattern of `crc.rs` line 11. -/
def GENERATOR : ℕ := 0x1FFF409

/-- Rust `get_adsb_crc` (`crc.rs` lines 10-40): append 24 zero bits to the
MSB-first bit expansion of `buf`, run the bitwise long division (XOR the
25 generator bits at every position whose leading bit is 1), and read the
24-bit remainder off the tail. -/
def get_adsb_crc (buf : List ℕ) : ℕ :=
  let bits₀ : List Bool :=
    (buf.flatMap fun byte => (List.range 8).reverse.map fun i => (byte >>> i) &&& 1 != 0)
      ++ List.replicate 24 false
  let bits : List Bool :=
    (List.range (bits₀.length - 24)).foldl
      (fun bits i =>
        if bits.getD i false then
          (List.range 25).foldl
            (fun bits j =>
              bits.set (i + j)
                (xor (bits.getD (i + j) false) ((GENERATOR >>> (24 - j)) &&& 1 != 0)))
            bits
        else bits)
      bits₀
  (List.range 24).foldl
    (fun remainder i =>
      if bits.getD (bits.length - 24 + i) false then
        remainder ||| (1 <<< (24 - 1 - i))
      else remainder)
    0

/-- One flip attempt of `try_crc_recovery`: flip bit `7 - i` of byte
`num`, recompute the CRC over all but the last three bytes, and keep the
flipped buffer when it matches the received parity.  (The source clones
`buf` once per byte and overwrites cell `num` with a fresh
`byte ^ (1 << (7-i))` on every inner iteration, so each attempt sees the
original buffer with exactly one bit flipped, as written here.) -/
def crcAttempt (buf : List ℕ) (packet_crc : ℕ) (num i : ℕ) : Option (List ℕ) :=
  let augmented_byte := buf.getD num 0 ^^^ (1 <<< (7 - i))
  let augmented_buf := buf.set num augmented_byte
  let crc := get_adsb_crc (augmented_buf.take (augmented_buf.length - 3))
  if crc = packet_crc then some augmented_buf else none

/-- Rust `try_crc_recovery` (`crc.rs` lines 49-65): for each byte index `num`
(over the whole 14-byte buffer) and each bit `i` from the MSB down, try
the single flip and return the first match; `calc_crc` is received but
unused, as in the source. -/
def try_crc_recovery (buf : List ℕ) (_calc_crc packet_crc : ℕ) :
    Option (List ℕ) :=
  ((List.range buf.length).flatMap fun num =>
      (List.range 8).map fun i => (num, i)).findSome?
    fun p => crcAttempt buf packet_crc p.1 p.2

/-- The 88 data-bit flip attempts alone: bytes `0..10`, bit 7 down to
bit 0, first match wins.  This is the search the specification
describes; `try_crc_recovery` is proved to coincide with it. -/
def dataBitSearch (buf : List ℕ) (packet_crc : ℕ) : Option (List ℕ) :=
  ((List.range 11).flatMap fun num =>
      (List.range 8).map fun i => (num, i)).findSome?
    fun p => crcAttempt buf packet_crc p.1 p.2

end Crc

namespace Demod

/-- Rust `extract_packet` (`demod.rs` lines 65-82): run the relative-rule
extractor (the threshold it receives is the f32-derated `high`, modelled
by `derate`), decode the symbols to bytes, and accept the frame if the
CRC over all but the last three bytes matches the parity assembled from
the last three bytes, else fall back to single-bit recovery. -/
def extract_packet (derate : ℕ → ℕ) (buf : List ℕ) (high : ℕ) :
    RunRes (List ℕ) :=
  match extract_manchester_relative buf (derate high) with
  | .panicked => .panicked
  | .rejected => .rejected
  | .ok extracted_manchester =>
    match decode_packet extracted_manchester with
    | none => .rejected
    | some packet =>
      let len := packet.length
      let calced_crc := Crc.get_adsb_crc (packet.take (len - 3))
      let packet_crc := packet.getD (len - 1) 0 |||
        (packet.getD (len - 2) 0 <<< 8) ||| (packet.getD (len - 3) 0 <<< 16)
      if calced_crc ≠ packet_crc then
        match Crc.try_crc_recovery packet calced_crc packet_crc with
        | some p => .ok p
        | none => .rejected
      else .ok packet

end Demod

namespace Adsb

/-! ## `src/adsb.rs` (pipeline entry points used by `process_sdr_data_thread`) -/

/-- Rust `check_preamble` (`adsb.rs` lines 128-153): same index pairs as the
preamble part of `Demod.check_for_adsb_packet`, guarded by
`assert!(buf.len() == 16)` (a failed assertion panics) and with the
running minimum initialised to `800000` instead of `u32::MAX`. -/
def check_preamble (derate : ℕ → ℕ) (buf : List ℕ) :
    RunRes (Option (ℕ × ℤ × ℤ)) :=
  if buf.length ≠ 16 then .panicked
  else if Demod.preambleHighs.any fun high =>
      Demod.preambleLows.any fun low => buf.getD high 0 < buf.getD low 0 then
    .ok none
  else
    let min := Demod.preambleHighs.foldl
      (fun m high => if buf.getD high 0 < m then buf.getD high 0 else m)
      800000
    .ok (some (derate min, 0, 0))

/-- Rust `check_df` (`adsb.rs` lines 155-175): the DF=17 first-byte shape over
a 10-sample window; `false` as soon as a high sample is strictly below a
low sample. -/
def check_df (buf : List ℕ) : Bool :=
  !(Demod.dfHighs.any fun high =>
    Demod.dfLows.any fun low => buf.getD high 0 < buf.getD low 0)

/-- Inner loop of the older `extract_manchester` (`adsb.rs` lines
183-213), iterated over the sample indices `(0..112*2).step_by(2)`:
check `errors > 2` at the top of the iteration, push `inter` and reset
the counter at a byte boundary, fold `buf[i] > high` into `inter`, and
classify the chip pair with strict threshold comparisons on both
samples. -/
def emGo (buf : List ℕ) (high : ℕ) :
    List ℕ → List ℕ → ℕ → ℕ → RunRes (List ℕ)
  | [], result, _, _ => .ok result
  | i :: rest, result, inter, errors =>
    if errors > 2 then .rejected
    else
      let st := if i % 16 = 0 ∧ i ≠ 0 then (result ++ [inter], 0, 0)
        else (result, inter, errors)
      match buf.get? i with
      | none => .panicked
      | some bi =>
        let inter := st.2.1 ||| ((if bi > high then 1 else 0) <<< (15 - i % 16))
        match buf.get? (i + 1) with
        | none => .panicked
        | some bi1 =>
          if bi > high ∧ bi1 < high then emGo buf high rest st.1 inter st.2.2
          else if bi < high ∧ bi1 > high then emGo buf high rest st.1 inter st.2.2
          else emGo buf high rest st.1 inter (st.2.2 + 1)

/-- Rust `extract_manchester` (`adsb.rs` lines 183-213).  Note the final
16-sample block's symbol is never pushed (the push happens at the start
of the next block), so a full 224-sample buffer yields 13 symbols. -/
def extract_manchester (buf : List ℕ) (high : ℕ) : RunRes (List ℕ) :=
  emGo buf high ((List.range 112).map (· * 2)) [] 0 0

/-- Rust slice `l[a..b]`: panics (`none`) unless `a ≤ b ≤ l.len()`. -/
def rustSlice (l : List ℕ) (a b : ℕ) : Option (List ℕ) :=
  if a ≤ b ∧ b ≤ l.length then some ((l.drop a).take (b - a)) else none

/-- The bit width of `usize` on the 64-bit targets the program is built
for. -/
def USIZE : ℕ := 2 ^ 64

/-- The scan bound `mag_vec.len() - (16 + 112 * 2)` of
`process_sdr_data_thread` (`adsb.rs` line 282), computed in `usize`
arithmetic: for `len < 240` the subtraction underflows (it panics
outright in a debug build; in a release build it wraps around, which is
the value modelled here). -/
def scanBound (len : ℕ) : ℕ := (len + USIZE - 240) % USIZE

/-- The scan loop of `process_sdr_data_thread` (`adsb.rs` lines
281-297) over one magnitude batch: while `i` is below `scanBound`, gate
the 16-sample window at `i` with `check_preamble`, the next 10 samples
with `check_df`, and extract the 224 payload samples; a successful
extraction emits the raw symbol buffer and advances by 240, any failure
advances by 1.  Emitted frames are collected in `acc` (the source sends
`AdsbPacket::new(raw_buf)` down a channel; the packet construction does
not affect emission or panics).  `fuel` only bounds the recursion and is
chosen `≥ scanBound` by the wrapper, so it never runs out before the
loop exits. -/
def scanLoop (derate : ℕ → ℕ) (mag : List ℕ) :
    ℕ → ℕ → List (List ℕ) → RunRes (List (List ℕ))
  | 0, _, acc => .ok acc
  | fuel + 1, i, acc =>
    if i < scanBound mag.length then
      match rustSlice mag i (i + 16) with
      | none => .panicked
      | some w16 =>
        match check_preamble derate w16 with
        | .panicked => .panicked
        | .rejected => .panicked
        | .ok none => scanLoop derate mag fuel (i + 1) acc
        | .ok (some (high, _, _)) =>
          match rustSlice mag (i + 16) (i + 16 + 10) with
          | none => .panicked
          | some w10 =>
            if check_df w10 then
              match rustSlice mag (i + 16) (i + 16 + 112 * 2) with
              | none => .panicked
              | some wm =>
                match extract_manchester wm high with
                | .ok raw => scanLoop derate mag fuel (i + 240) (acc ++ [raw])
                | .rejected => scanLoop derate mag fuel (i + 1) acc
                | .panicked => .panicked
            else scanLoop derate mag fuel (i + 1) acc
      
    else .ok acc

/-- One `rx.recv()` step of `process_sdr_data_thread`: scan a whole
magnitude batch from `i = 0`. -/
def process_scan (derate : ℕ → ℕ) (mag : List ℕ) : RunRes (List (List ℕ)) :=
  scanLoop derate mag (scanBound mag.length) 0 []

end Adsb

namespace Msgs

/-! ## `src/adsb/msgs.rs` -/

/-- CPR message parity (`msgs.rs` lines 48-51). -/
inductive CprFormat where
  | Even
  | Odd
deriving DecidableEq, Repr

/-- Rust `AircraftPosition` (`msgs.rs` lines 55-67). -/
structure AircraftPosition where
  raw_msg : List ℕ
  msg_type : ℕ
  surveillance_status : ℕ
  nic_supplement : ℕ
  altitude : ℤ
  cpr_time : ℕ
  cpr_format : CprFormat
  cpr_latitude : ℕ
  cpr_longitude : ℕ
deriving DecidableEq, Repr

/-- Rust `AircraftPosition::new` (`msgs.rs` lines 70-102): decode the 7-byte ME
field — Q-bit, AC12 altitude (25 ft or 100 ft steps, minus 1000),
type code, surveillance status, NIC supplement, CPR time flag, CPR
format, and the two 17-bit raw CPR coordinates. -/
def AircraftPosition.new (msg : List ℕ) : AircraftPosition :=
  let alt_mode_25 := msg.getD 1 0 &&& 1 = 1
  let altitude : ℤ :=
    (((msg.getD 1 0 >>> 1) <<< 4) ||| ((msg.getD 2 0 &&& 0xF0) >>> 4) : ℕ)
  let altitude := altitude * (if alt_mode_25 then 25 else 100) - 1000
  { raw_msg := msg
    msg_type := (msg.getD 0 0 &&& 0b11111000) >>> 3
    surveillance_status := (msg.getD 0 0 &&& 0b00000110) >>> 1
    nic_supplement := msg.getD 0 0 &&& 0b00000001
    altitude := altitude
    cpr_time := (msg.getD 2 0 &&& 0b00001000) >>> 3
    cpr_format := if (msg.getD 2 0 &&& 0b00000100) >>> 2 = 1 then .Odd else .Even
    cpr_latitude := ((msg.getD 2 0 &&& 0b11) <<< 15) ||| (msg.getD 3 0 <<< 7) |||
      ((msg.getD 4 0 &&& 0b11111110) >>> 1)
    cpr_longitude := ((msg.getD 4 0 &&& 0b1) <<< 16) ||| (msg.getD 5 0 <<< 8) |||
      msg.getD 6 0 }

/-- Rust `AircraftPosition::get_cpr_position` (`msgs.rs` lines 115-117). -/
def AircraftPosition.get_cpr_position (p : AircraftPosition) : ℕ × ℕ :=
  (p.cpr_latitude, p.cpr_longitude)

/-- The drain `while bits >= 6 { bits -= 6; out.push((acc >> bits) & 0x3F) }`
of `to_6bit_chunks`, with structural fuel (`bits` itself suffices since
every iteration removes 6). -/
def drain6 : ℕ → ℕ → ℕ → List ℕ → List ℕ × ℕ
  | 0, _, bits, out => (out, bits)
  | fuel + 1, acc, bits, out =>
    if bits ≥ 6 then
      drain6 fuel acc (bits - 6) (out ++ [(acc >>> (bits - 6)) &&& 0x3F])
    else (out, bits)

/-- Rust `to_6bit_chunks` (`msgs.rs` lines 150-170): regroup the bytes'
bits into 6-bit symbols, top bits first (`acc` is a `u32`, hence the
explicit `% 2^32`). -/
def to_6bit_chunks (input : List ℕ) : List ℕ :=
  let st := input.foldl
    (fun (st : List ℕ × ℕ × ℕ) byte =>
      let acc := ((st.2.1 <<< 8) ||| byte) % 2 ^ 32
      let bits := st.2.2 + 8
      let (out, bits') := drain6 bits acc bits st.1
      (out, acc, bits'))
    ([], 0, 0)
  if st.2.2 > 0 then st.1 ++ [(st.2.1 <<< (6 - st.2.2)) &&& 0x3F] else st.1

/-- The 64-entry `CHAR_CONVERT` table (`msgs.rs` lines 172-177). -/
def CHAR_CONVERT : List Char :=
  ['#', 'A', 'B', 'C', 'D', 'E', 'F', 'G', 'H', 'I', 'J', 'K', 'L', 'M', 'N',
   'O', 'P', 'Q', 'R', 'S', 'T', 'U', 'V', 'W', 'X', 'Y', 'Z', '#', '#', '#',
   '#', '#', '_', '#', '#', '#', '#', '#', '#', '#', '#', '#', '#', '#', '#',
   '#', '#', '#', '0', '1', '2', '3', '4', '5', '6', '7', '8', '9', '#', '#',
   '#', '#', '#', '#']

/-- Rust `AircraftID` (`msgs.rs` lines 144-148). -/
structure AircraftID where
  raw_msg : List ℕ
  msg_type : ℕ
  callsign : List Char
deriving DecidableEq, Repr

/-- Rust `AircraftID::new` (`msgs.rs` lines 180-201): regroup bytes 1-6 of the
ME field into 6-bit symbols and map each through `CHAR_CONVERT`
(out-of-range indices fall back to `'?'`, as in the source). -/
def AircraftID.new (msg : List ℕ) : AircraftID :=
  { raw_msg := msg
    msg_type := (msg.getD 0 0 &&& 0b11111000) >>> 3
    callsign := (to_6bit_chunks (msg.drop 1)).map fun b => CHAR_CONVERT.getD b '?' }

/-- Rust `AdsbMsgType` (`msgs.rs` lines 7-11). -/
inductive AdsbMsgType where
  | AircraftID (id : AircraftID)
  | AircraftPosition (pos : AircraftPosition)
  | Uknown (raw_msg : List ℕ)
deriving DecidableEq, Repr

end Msgs

namespace Packet

/-! ## `src/adsb/packet.rs` -/

open Msgs

/-- Rust `AdsbPacket` (`packet.rs` lines 10-18).  The wall-clock reception
timestamp `Local::now()` is modelled as an integer number of seconds
supplied by the caller. -/
structure AdsbPacket where
  packet : List ℕ
  downlink_format : ℕ
  capability : ℕ
  icao : ℕ
  msg_type : ℕ
  msg : AdsbMsgType
  time_processed : ℤ
deriving DecidableEq, Repr

/-- Rust `AdsbPacket::new` (`packet.rs` lines 25-50): split byte 0 into the
downlink format (`packet[0] >> 3`) and the capability — which the source
masks with `packet[0] & 5`, i.e. `0b101`, not the full 3-bit `& 7` —
assemble the 24-bit ICAO from bytes 1-3, take the type code from the
top 5 bits of byte 4, and dispatch the 7-byte ME field on it
(`1..=4` identification, `9..=18` airborne position, otherwise the raw
payload is kept). -/
def AdsbPacket.new (packet : List ℕ) (now : ℤ) : AdsbPacket :=
  let b0 := packet.getD 0 0
  let msg_type := packet.getD 4 0 >>> 3
  let me := (packet.drop 4).take 7
  let msg :=
    if 1 ≤ msg_type ∧ msg_type ≤ 4 then
      AdsbMsgType.AircraftID (AircraftID.new me)
    else if 9 ≤ msg_type ∧ msg_type ≤ 18 then
      AdsbMsgType.AircraftPosition (AircraftPosition.new me)
    else
      AdsbMsgType.Uknown (packet.drop 4)
  { packet := packet
    downlink_format := b0 >>> 3
    capability := b0 &&& 5
    icao := (packet.getD 1 0 <<< 16) ||| (packet.getD 2 0 <<< 8) ||| packet.getD 3 0
    msg_type := msg_type
    msg := msg
    time_processed := now }

end Packet

namespace CprMath

/-! ## Shared CPR arithmetic

`src/adsb/aircraft.rs` (lines 104-190) and `src/adsb/cpr.rs` (lines
19-126) each carry a private copy of the CPR math; the pieces below are
shared by both embeddings where the two copies are textually identical.
-/

open Msgs

/-- Rust `NUM_ZONES` (`aircraft.rs` line 104, `cpr.rs` line 19). -/
def NUM_ZONES : ℚ := 15

/-- Rust `convert_cpr_to_float` (`aircraft.rs` lines 107-110). -/
def convert_cpr_to_float (cpr : ℕ) : ℚ := (cpr : ℚ) / 131072

/-- Truncation toward zero, the rounding of Rust's `%` on `f64`. -/
def truncQ (q : ℚ) : ℤ := if 0 ≤ q then q.floor else -(-q).floor

/-- Rust's `%` on `f64` values: the remainder of the division truncated
toward zero (same sign as the dividend). -/
def rust_fmod (a b : ℚ) : ℚ := a - b * (truncQ (a / b) : ℚ)

/-- Rust `calc_num_zones` (`aircraft.rs` lines 117-132 and `cpr.rs` lines
39-54, identical): the special cases for the equator, `±87` and
latitudes beyond `±87` are exact; the general-case
`floor(2π / acos(1 - (1 - cos(π/30)) / cos²(π·lat/180)))` is the
transcendental NL lookup, represented by the parameter `nlCore`. -/
def calc_num_zones (nlCore : ℚ → ℕ) (lat : ℚ) : ℕ :=
  if lat = 0 then 59
  else if lat = 87 ∨ lat = -87 then 2
  else if lat < -87 ∨ lat > 87 then 1
  else nlCore lat

end CprMath

namespace AircraftMod

/-! ## `src/adsb/aircraft.rs` -/

open Msgs CprMath Packet

/-- Rust `GeographicPosition` (`aircraft.rs` lines 10-14), over `ℚ`. -/
structure GeographicPosition where
  latitude : ℚ
  longitude : ℚ
deriving DecidableEq, Repr

/-- Rust `calculate_latitude` (`aircraft.rs` lines 135-160): latitude index
`j = floor(59·e - 60·o + 0.5)`, the even/odd zone candidates (Rust `%`
is the truncated remainder), selection of the candidate belonging to the
newer frame (`first` names the parity of the older one), and the
`> 270 → −360` wrap. -/
def calculate_latitude (even_cpr_lat odd_cpr_lat : ℕ) (first : CprFormat) : ℚ :=
  let EVEN_LAT_DIVISIONS : ℚ := 360 / (4 * NUM_ZONES)
  let ODD_LAT_DIVISIONS : ℚ := 360 / (4 * NUM_ZONES - 1)
  let even_cpr_lat := convert_cpr_to_float even_cpr_lat
  let odd_cpr_lat := convert_cpr_to_float odd_cpr_lat
  let latitude_index : ℚ := ((59 * even_cpr_lat - 60 * odd_cpr_lat + 1/2).floor : ℤ)
  let even_latitude := EVEN_LAT_DIVISIONS * (rust_fmod latitude_index 60 + even_cpr_lat)
  let odd_latitude := ODD_LAT_DIVISIONS * (rust_fmod latitude_index 59 + odd_cpr_lat)
  let latitude := match first with
    | CprFormat.Even => odd_latitude
    | CprFormat.Odd => even_latitude
  if latitude > 270 then latitude - 360 else latitude

/-- Rust `calculate_longitude` (`aircraft.rs` lines 162-190): the zone count
is `NL(lat)-1 (min 1)` when the older frame is even, `NL(lat) (min 1)`
when it is odd; `m = floor(e·(n-1) - o·n + 0.5)`; the final term always
uses the **odd** raw longitude (`lon_cpr_o`), whichever frame is newer;
`> 180 → −360` wrap.  (`calc_num_zones(lat) - 1` is `u32` arithmetic in
the source; the truncated `ℕ` subtraction used here agrees with it
whenever the NL value is ≥ 1, which every theorem below guarantees.) -/
def calculate_longitude (nlCore : ℚ → ℕ) (even_cpr_long odd_cpr_long : ℕ)
    (latitude : ℚ) (first : CprFormat) : ℚ :=
  let lon_cpr_e := convert_cpr_to_float even_cpr_long
  let lon_cpr_o := convert_cpr_to_float odd_cpr_long
  let num_zones : ℚ := match first with
    | CprFormat.Even => (max (calc_num_zones nlCore latitude - 1) 1 : ℕ)
    | CprFormat.Odd => (max (calc_num_zones nlCore latitude) 1 : ℕ)
  let divisions := 360 / num_zones
  let m : ℚ := ((lon_cpr_e * (num_zones - 1) - lon_cpr_o * num_zones + 1/2).floor : ℤ)
  let longitude := divisions * (rust_fmod m num_zones + lon_cpr_o)
  if longitude > 180 then longitude - 360 else longitude

/-- Rust `calculate_geographic_position` (`aircraft.rs` lines 199-205): no
zone-consistency gate, always a position. -/
def calculate_geographic_position (nlCore : ℚ → ℕ)
    (even_cpr_lat_long odd_cpr_lat_long : ℕ × ℕ) (first : CprFormat) :
    GeographicPosition :=
  let latitude := calculate_latitude even_cpr_lat_long.1 odd_cpr_lat_long.1 first
  let longitude := calculate_longitude nlCore even_cpr_lat_long.2
    odd_cpr_lat_long.2 latitude first
  { latitude := latitude, longitude := longitude }

/-- Rust `Aircraft` (`aircraft.rs` lines 18-26). -/
structure Aircraft where
  icao : ℕ
  callsign : Option (List Char)
  altitude : ℤ
  geo_position : Option GeographicPosition
  last_contact : ℤ
  last_odd_packet : Option AircraftPosition
  last_even_packet : Option AircraftPosition
deriving DecidableEq, Repr

/-- Rust `Aircraft::new` (`aircraft.rs` lines 29-34); `Local::now()` is the
supplied `now`. -/
def Aircraft.new (icao : ℕ) (now : ℤ) : Aircraft :=
  { icao := icao, callsign := none, altitude := 0, geo_position := none
    last_contact := now, last_odd_packet := none, last_even_packet := none }

/-- Rust `Aircraft::handle_packet` (`aircraft.rs` lines 36-74): ignore frames
for another ICAO; position frames set the altitude and `last_contact`,
solve the position whenever the opposite-parity slot is populated — with
no check of the slots' ages — and store the frame into their parity
slot; identification frames replace the callsign only; unknown frames do
nothing. -/
def Aircraft.handle_packet (nlCore : ℚ → ℕ) (a : Aircraft)
    (msg : AdsbPacket) : Aircraft :=
  if msg.icao ≠ a.icao then a
  else
    match msg.msg with
    | AdsbMsgType.AircraftPosition pos =>
      let a := { a with altitude := pos.altitude
                        last_contact := msg.time_processed }
      match pos.cpr_format with
      | CprFormat.Even =>
        let a := match a.last_odd_packet with
          | some odd_pos =>
            { a with geo_position := some (calculate_geographic_position nlCore
                pos.get_cpr_position odd_pos.get_cpr_position CprFormat.Odd) }
          | none => a
        { a with last_even_packet := some pos }
      | CprFormat.Odd =>
        let a := match a.last_even_packet with
          | some even_pos =>
            { a with geo_position := some (calculate_geographic_position nlCore
                even_pos.get_cpr_position pos.get_cpr_position CprFormat.Even) }
          | none => a
        { a with last_odd_packet := some pos }
    | AdsbMsgType.AircraftID id => { a with callsign := some id.callsign }
    | AdsbMsgType.Uknown _ => a

end AircraftMod

namespace Cpr

/-! ## `src/adsb/cpr.rs` -/

open Msgs CprMath

/-- Rust `calculate_latitude` (`cpr.rs` lines 63-88): identical arithmetic to
the `aircraft.rs` copy but returning the selected latitude together with
both unnormalised candidates. -/
def calculate_latitude (even_cpr_lat odd_cpr_lat : ℕ) (first : CprFormat) :
    ℚ × ℚ × ℚ :=
  let EVEN_LAT_DIVISIONS : ℚ := 360 / (4 * NUM_ZONES)
  let ODD_LAT_DIVISIONS : ℚ := 360 / (4 * NUM_ZONES - 1)
  let even_cpr_lat := convert_cpr_to_float even_cpr_lat
  let odd_cpr_lat := convert_cpr_to_float odd_cpr_lat
  let latitude_index : ℚ := ((59 * even_cpr_lat - 60 * odd_cpr_lat + 1/2).floor : ℤ)
  let even_latitude := EVEN_LAT_DIVISIONS * (rust_fmod latitude_index 60 + even_cpr_lat)
  let odd_latitude := ODD_LAT_DIVISIONS * (rust_fmod latitude_index 59 + odd_cpr_lat)
  let latitude := match first with
    | CprFormat.Even => odd_latitude
    | CprFormat.Odd => even_latitude
  let latitude := if latitude > 270 then latitude - 360 else latitude
  (latitude, even_latitude, odd_latitude)

/-- Rust `normalize_longitude` (`cpr.rs` lines 27-31): the two `while` loops
add or subtract whole multiples of 360 until the value lies in
`[-180, 180]`; written in closed form with the matching iteration
counts. -/
def normalize_longitude (lon : ℚ) : ℚ :=
  if lon < -180 then lon + 360 * (((-180 - lon) / 360).ceil : ℤ)
  else if lon > 180 then lon - 360 * (((lon - 180) / 360).ceil : ℤ)
  else lon

/-- Rust `calculate_longitude` (`cpr.rs` lines 90-126): unlike the
`aircraft.rs` copy this one derives the zone count from
`calc_num_zones(latitude - 1)` when the newer frame is odd, uses the
plain `nl = calc_num_zones(latitude)` in `m`, and puts the **newer**
frame's raw longitude in the final term. -/
def calculate_longitude (nlCore : ℚ → ℕ) (even_cpr_long odd_cpr_long : ℕ)
    (latitude : ℚ) (first : CprFormat) : ℚ :=
  let lon_cpr_e := convert_cpr_to_float even_cpr_long
  let lon_cpr_o := convert_cpr_to_float odd_cpr_long
  let nl := calc_num_zones nlCore latitude
  let num_zones : ℚ := match first with
    | CprFormat.Even => (max (calc_num_zones nlCore (latitude - 1)) 1 : ℕ)
    | CprFormat.Odd => (max (calc_num_zones nlCore latitude) 1 : ℕ)
  let divisions := 360 / num_zones
  let m : ℚ := ((lon_cpr_e * ((nl - 1 : ℕ) : ℚ) - lon_cpr_o * (nl : ℚ) + 1/2).floor : ℤ)
  let longitude := match first with
    | CprFormat.Even => divisions * (rust_fmod m num_zones + lon_cpr_o)
    | CprFormat.Odd => divisions * (rust_fmod m num_zones + lon_cpr_e)
  normalize_longitude longitude

/-- Rust `calculate_geographic_position` (`cpr.rs` lines 135-147): the
zone-consistency gate compares the NL of the two unnormalised latitude
candidates and yields `None` on mismatch; otherwise the position. -/
def calculate_geographic_position (nlCore : ℚ → ℕ)
    (even_cpr_lat_long odd_cpr_lat_long : ℕ × ℕ) (first : CprFormat) :
    Option AircraftMod.GeographicPosition :=
  let lats := calculate_latitude even_cpr_lat_long.1 odd_cpr_lat_long.1 first
  if calc_num_zones nlCore lats.2.1 ≠ calc_num_zones nlCore lats.2.2 then none
  else
    some { latitude := lats.1
           longitude := calculate_longitude nlCore even_cpr_lat_long.2
             odd_cpr_lat_long.2 lats.1 first }

end Cpr

namespace SpecCpr

/-! ## The specification's standard CPR longitude formulation

Modelled from the spec: §4.F "Longitude computation" — the standard
formulation with `n = NL(φ)` for an even newer frame and
`n = max(NL(φ) − 1, 1)` for an odd newer frame, the mathematical
`mod(m, n)`, and the **newer** frame's raw longitude in the final term.
This definition exists only to be compared against the source's
formulas; `nl` is the value of `NL(φ)` at the already-selected
latitude. -/
def standard_longitude (nl : ℕ) (newer : Msgs.CprFormat)
    (cpr_lon_even cpr_lon_odd : ℕ) : ℚ :=
  let lon_e : ℚ := (cpr_lon_even : ℚ) / 2 ^ 17
  let lon_o : ℚ := (cpr_lon_odd : ℚ) / 2 ^ 17
  let n : ℕ := match newer with
    | Msgs.CprFormat.Even => nl
    | Msgs.CprFormat.Odd => max (nl - 1) 1
  let Dlon : ℚ := 360 / (n : ℚ)
  let m : ℤ := (lon_e * ((nl : ℚ) - 1) - lon_o * (nl : ℚ) + 1/2).floor
  let t : ℚ := match newer with
    | Msgs.CprFormat.Even => lon_e
    | Msgs.CprFormat.Odd => lon_o
  let lon := Dlon * (((m % (n : ℤ) : ℤ) : ℚ) + t)
  if lon > 180 then lon - 360 else lon

end SpecCpr

namespace Demod

/-- A successful in-range lookup equals the defaulted lookup. -/
theorem get?_eq_some_getD (l : List ℕ) (i : ℕ) (h : i < l.length) :
    l.get? i = some (l.getD i 0) := by
  simp [List.get?_eq_getElem?, List.getD_eq_getElem?_getD,
    List.getElem?_eq_getElem h]

/-- Unfolding step of the inner Manchester loop at a bit position whose
two samples are in range. -/
theorem manchesterBits_cons (buf : List ℕ) (classify : ℕ → ℕ → ℕ × ℕ)
    (bs bit : ℕ) (rest : List ℕ) (symbol errors a b : ℕ)
    (ha : buf.get? (bs + bit * 2) = some a)
    (hb : buf.get? (bs + bit * 2 + 1) = some b) :
    manchesterBits buf classify bs (bit :: rest) symbol errors =
      if (classify a b).1 ≠ (classify a b).2 then
        manchesterBits buf classify bs rest
          (symbol ||| ((classify a b).1 <<< (14 - bit * 2)) |||
            ((classify a b).2 <<< (15 - bit * 2))) errors
      else if errors + 1 > 2 then .rejected
      else manchesterBits buf classify bs rest symbol (errors + 1) := by
  rw [manchesterBits]
  rw [show bs + bit * 2 + 1 = (bs + bit * 2) + 1 from rfl] at hb
  rw [ha, hb]

/-- Number of ambiguous chip pairs (both samples on the same side of the
threshold) among the bit positions `bits` of the block at `bs`. -/
def ambCount (buf : List ℕ) (high bs : ℕ) (bits : List ℕ) : ℕ :=
  (bits.filter fun bit =>
    decide (buf.getD (bs + bit * 2) 0 > high) ==
      decide (buf.getD (bs + bit * 2 + 1) 0 > high)).length

/-- The per-block counter of `threshAmb` is `ambCount` over all 8 bit
positions. -/
theorem threshAmb_eq_ambCount (buf : List ℕ) (high bs : ℕ) :
    threshAmb buf high bs = ambCount buf high bs (List.range 8) := by
  unfold threshAmb ambCount
  congr 1

/-- Cons step of `ambCount`. -/
theorem ambCount_cons (buf : List ℕ) (high bs bit : ℕ) (rest : List ℕ) :
    ambCount buf high bs (bit :: rest) =
      (if decide (buf.getD (bs + bit * 2) 0 > high) =
          decide (buf.getD (bs + bit * 2 + 1) 0 > high) then 1 else 0) +
        ambCount buf high bs rest := by
  by_cases h : buf.getD (bs + bit * 2) 0 > high ↔
      buf.getD (bs + bit * 2 + 1) 0 > high
  · simp only [List.getD_eq_getElem?_getD] at h
    simp [ambCount, List.filter_cons, h]
    try omega
  · simp only [List.getD_eq_getElem?_getD] at h
    simp [ambCount, List.filter_cons, h]
    try omega

/-- The threshold classifier emits a distinct pair exactly on
unambiguous samples. -/
theorem cthr_ne_iff (high a b : ℕ) :
    (cthr high a b).1 ≠ (cthr high a b).2 ↔
      decide (a > high) ≠ decide (b > high) := by
  unfold cthr
  by_cases h1 : a > high <;> by_cases h2 : b > high <;> simp [h1, h2]

/-- Behaviour of the threshold inner loop: starting from an error count
of at most 2, the loop completes with a symbol iff the errors plus the
remaining ambiguous pairs stay within 2, and otherwise rejects. -/
theorem thresh_bits_spec (buf : List ℕ) (high bs : ℕ) (bits : List ℕ) :
    ∀ (symbol errors : ℕ),
      (∀ bit ∈ bits, bs + bit * 2 + 1 < buf.length) → errors ≤ 2 →
      (errors + ambCount buf high bs bits ≤ 2 →
        ∃ s, manchesterBits buf (cthr high) bs bits symbol errors = .ok s) ∧
      (¬ errors + ambCount buf high bs bits ≤ 2 →
        manchesterBits buf (cthr high) bs bits symbol errors = .rejected) := by
  induction bits with
  | nil =>
    intro symbol errors _ herr
    refine ⟨fun _ => ⟨symbol, rfl⟩, fun hc => absurd ?_ hc⟩
    simpa [ambCount] using herr
  | cons bit rest ih =>
    intro symbol errors hidx herr
    have hbit : bs + bit * 2 + 1 < buf.length := hidx bit (by simp)
    have hbit0 : bs + bit * 2 < buf.length := Nat.lt_of_succ_lt hbit
    have hrest : ∀ b ∈ rest, bs + b * 2 + 1 < buf.length := fun b hb =>
      hidx b (by simp [hb])
    have hg0 := get?_eq_some_getD buf (bs + bit * 2) hbit0
    have hg1 := get?_eq_some_getD buf (bs + bit * 2 + 1) hbit
    rw [manchesterBits_cons buf (cthr high) bs bit rest symbol errors _ _ hg0 hg1,
      ambCount_cons]
    by_cases hamb : decide (buf.getD (bs + bit * 2) 0 > high) =
        decide (buf.getD (bs + bit * 2 + 1) 0 > high)
    · rw [if_pos hamb]
      have hne : ¬ (cthr high (buf.getD (bs + bit * 2) 0)
          (buf.getD (bs + bit * 2 + 1) 0)).1 ≠
          (cthr high (buf.getD (bs + bit * 2) 0)
            (buf.getD (bs + bit * 2 + 1) 0)).2 := by
        rw [cthr_ne_iff]
        exact not_not_intro hamb
      rw [if_neg hne]
      by_cases herr2 : errors + 1 > 2
      · rw [if_pos herr2]
        exact ⟨fun hle => absurd hle (by omega), fun _ => rfl⟩
      · rw [if_neg herr2]
        have := ih symbol (errors + 1) hrest (by omega)
        exact ⟨fun hle => this.1 (by omega), fun hgt => this.2 (by omega)⟩
    · rw [if_neg hamb, Nat.zero_add]
      have hne : (cthr high (buf.getD (bs + bit * 2) 0)
          (buf.getD (bs + bit * 2 + 1) 0)).1 ≠
          (cthr high (buf.getD (bs + bit * 2) 0)
            (buf.getD (bs + bit * 2 + 1) 0)).2 :=
        (cthr_ne_iff high _ _).mpr hamb
      rw [if_pos hne]
      exact ih _ errors hrest herr

end Demod

namespace Demod

/-- Behaviour of the threshold outer loop: with all block samples in
range, the frame is accepted iff every block has at most two ambiguous
chip pairs — the error counter restarts at 0 for each block. -/
theorem thresh_blocks_spec (buf : List ℕ) (high : ℕ) :
    ∀ (starts : List ℕ) (acc : List ℕ),
      (∀ bs ∈ starts, ∀ bit ∈ List.range 8, bs + bit * 2 + 1 < buf.length) →
      ((∃ syms, manchesterBlocks buf (cthr high) acc starts = .ok syms) ↔
        ∀ bs ∈ starts, ambCount buf high bs (List.range 8) ≤ 2) := by
  intro starts
  induction starts with
  | nil =>
    intro acc _
    simp [manchesterBlocks]
  | cons bs rest ih =>
    intro acc hidx
    have hbs : ∀ bit ∈ List.range 8, bs + bit * 2 + 1 < buf.length :=
      hidx bs (by simp)
    have hrest : ∀ b ∈ rest, ∀ bit ∈ List.range 8, b + bit * 2 + 1 < buf.length :=
      fun b hb => hidx b (by simp [hb])
    have spec := thresh_bits_spec buf high bs (List.range 8) 0 0 hbs (by omega)
    by_cases hle : ambCount buf high bs (List.range 8) ≤ 2
    · obtain ⟨s, hs⟩ := spec.1 (by omega)
      rw [manchesterBlocks, hs]
      rw [ih (acc ++ [s]) hrest]
      simp [hle]
    · have hs := spec.2 (by omega)
      rw [manchesterBlocks, hs]
      constructor
      · rintro ⟨syms, h⟩; cases h
      · intro h
        exact absurd (h bs (by simp)) hle

end Demod

/-- C6: for every 224-sample magnitude buffer, the threshold-rule
Manchester extractor accepts the frame iff each of the fourteen
16-sample byte blocks contains at most 2 ambiguous chip pairs — so a
byte with exactly 2 ambiguous pairs is still accepted, a byte with 3 or
more rejects the entire frame, and the counter restarts at every byte
boundary (ambiguities in different bytes do not accumulate). -/
theorem claim_C6_threshold_tolerance (buf : List ℕ) (high : ℕ)
    (hlen : buf.length = 224) :
    (∃ syms, Demod.extract_manchester_threshold buf high = .ok syms) ↔
      ∀ b < 14, Demod.threshAmb buf high (16 * b) ≤ 2 := by
  unfold Demod.extract_manchester_threshold
  have hbs : Demod.blockStarts buf.length = (List.range 14).map (· * 16) := by
    rw [hlen]; rfl
  rw [hbs]
  have hidx : ∀ bs ∈ (List.range 14).map (· * 16), ∀ bit ∈ List.range 8,
      bs + bit * 2 + 1 < buf.length := by
    intro bs hbs' bit hbit
    rw [hlen]
    simp only [List.mem_map, List.mem_range] at hbs'
    simp only [List.mem_range] at hbit
    obtain ⟨b, hb, rfl⟩ := hbs'
    omega
  rw [Demod.thresh_blocks_spec buf high ((List.range 14).map (· * 16)) [] hidx]
  constructor
  · intro h b hb
    rw [Demod.threshAmb_eq_ambCount]
    have := h (b * 16) (by simp only [List.mem_map, List.mem_range]; exact ⟨b, hb, rfl⟩)
    rwa [Nat.mul_comm 16 b]
  · intro h bs hbs'
    simp only [List.mem_map, List.mem_range] at hbs'
    obtain ⟨b, hb, rfl⟩ := hbs'
    have := h b hb
    rw [Demod.threshAmb_eq_ambCount, Nat.mul_comm 16 b] at this
    exact this

set_option maxRecDepth 4000 in
/-- C6 witness: a 224-sample buffer whose every byte block holds exactly
two ambiguous chip pairs (two `(0,0)` pairs, six alternating valid
pairs) is accepted by the threshold extractor. -/
theorem claim_C6_witness :
    (∃ syms, Demod.extract_manchester_threshold
        (List.flatten (List.replicate 14
          [0, 0, 0, 0, 20, 0, 20, 0, 20, 0, 20, 0, 20, 0, 20, 0])) 10 =
        .ok syms) ↔
      ∀ b < 14, Demod.threshAmb
        (List.flatten (List.replicate 14
          [0, 0, 0, 0, 20, 0, 20, 0, 20, 0, 20, 0, 20, 0, 20, 0])) 10
        (16 * b) ≤ 2 :=
  claim_C6_threshold_tolerance _ 10 (by decide)

namespace Demod

/-- The relative classifier always emits a distinct pair: every 2-sample
comparison is classified as a valid `10` or `01` chip pair. -/
theorem crel_ne (a b : ℕ) : (crel a b).1 ≠ (crel a b).2 := by
  unfold crel
  by_cases h : a > b <;> simp [h]

/-- With all samples of the block in range, the relative inner loop
always completes with a symbol and never touches the error counter. -/
theorem rel_bits_ok (buf : List ℕ) (bs : ℕ) (bits : List ℕ) :
    (∀ bit ∈ bits, bs + bit * 2 + 1 < buf.length) →
    ∀ symbol errors, ∃ s, manchesterBits buf crel bs bits symbol errors = .ok s := by
  induction bits with
  | nil => exact fun _ symbol errors => ⟨symbol, rfl⟩
  | cons bit rest ih =>
    intro hidx symbol errors
    have hbit : bs + bit * 2 + 1 < buf.length := hidx bit (by simp)
    have hg0 := get?_eq_some_getD buf (bs + bit * 2) (Nat.lt_of_succ_lt hbit)
    have hg1 := get?_eq_some_getD buf (bs + bit * 2 + 1) hbit
    rw [manchesterBits_cons buf crel bs bit rest symbol errors _ _ hg0 hg1,
      if_pos (crel_ne _ _)]
    exact ih (fun b hb => hidx b (by simp [hb])) _ errors

/-- The relative inner loop never rejects, whatever the buffer: the
error-counting branch is unreachable (an out-of-range index panics
instead). -/
theorem rel_bits_no_reject (buf : List ℕ) (bs : ℕ) :
    ∀ (bits : List ℕ) (symbol errors : ℕ),
      manchesterBits buf crel bs bits symbol errors ≠ .rejected := by
  intro bits
  induction bits with
  | nil => intro symbol errors h; cases h
  | cons bit rest ih =>
    intro symbol errors
    cases hg0 : buf.get? (bs + bit * 2) with
    | none =>
      rw [manchesterBits]
      rw [hg0]
      cases hg1 : buf.get? (bs + bit * 2 + 1) <;> simp
    | some a =>
      cases hg1 : buf.get? (bs + bit * 2 + 1) with
      | none =>
        rw [manchesterBits]
        rw [hg0, hg1]
        simp
      | some b =>
        rw [manchesterBits_cons buf crel bs bit rest symbol errors a b hg0 hg1,
          if_pos (crel_ne a b)]
        exact ih _ errors

/-- The relative outer loop never rejects. -/
theorem rel_blocks_no_reject (buf : List ℕ) :
    ∀ (starts acc : List ℕ),
      manchesterBlocks buf crel acc starts ≠ .rejected := by
  intro starts
  induction starts with
  | nil => intro acc h; cases h
  | cons bs rest ih =>
    intro acc
    cases hres : manchesterBits buf crel bs (List.range 8) 0 0 with
    | panicked => rw [manchesterBlocks, hres]; intro h; cases h
    | rejected => exact absurd hres (rel_bits_no_reject buf bs _ 0 0)
    | ok s => rw [manchesterBlocks, hres]; exact ih (acc ++ [s])

/-- With all samples of every listed block in range, the relative outer
loop returns one symbol per block. -/
theorem rel_blocks_ok (buf : List ℕ) :
    ∀ (starts acc : List ℕ),
      (∀ bs ∈ starts, ∀ bit ∈ List.range 8, bs + bit * 2 + 1 < buf.length) →
      ∃ syms, manchesterBlocks buf crel acc starts = .ok syms ∧
        syms.length = acc.length + starts.length := by
  intro starts
  induction starts with
  | nil => exact fun acc _ => ⟨acc, rfl, by simp⟩
  | cons bs rest ih =>
    intro acc hidx
    obtain ⟨s, hs⟩ := rel_bits_ok buf bs (List.range 8) (hidx bs (by simp)) 0 0
    rw [manchesterBlocks, hs]
    obtain ⟨syms, hsyms, hlen⟩ := ih (acc ++ [s]) fun b hb => hidx b (by simp [hb])
    refine ⟨syms, hsyms, ?_⟩
    simp only [List.length_append, List.length_cons, List.length_nil] at hlen ⊢
    omega

end Demod

/-- C10 (amended): the relative-rule Manchester extractor — the variant
`extract_packet` invokes — never returns the Manchester-error rejection
(`None`): the error counter is never incremented because every 2-sample
comparison is classified as a valid `10` or `01` pair.  On every buffer
whose length is a multiple of 16 (in particular the 224-sample payload
buffers of the deployed path) it returns `Some` with one 16-bit symbol
per 16-sample block; on other lengths, however, it does not return at
all — it panics on an out-of-bounds index inside the final partial
block (`claim_C10_counterexample`), so the original claim's "total for
every input buffer" fails. -/
theorem claim_C10_relative_total (buf : List ℕ) (high : ℕ) :
    Demod.extract_manchester_relative buf high ≠ .rejected ∧
      (buf.length % 16 = 0 →
        ∃ syms, Demod.extract_manchester_relative buf high = .ok syms ∧
          syms.length = buf.length / 16) := by
  constructor
  · exact Demod.rel_blocks_no_reject buf _ []
  · intro hdvd
    unfold Demod.extract_manchester_relative
    obtain ⟨k, hk⟩ : ∃ k, buf.length = 16 * k := ⟨buf.length / 16, by omega⟩
    have hbs : Demod.blockStarts buf.length =
        (List.range (buf.length / 16)).map (· * 16) := by
      unfold Demod.blockStarts
      rw [hk]
      have h16 : (16 * k + 15) / 16 = 16 * k / 16 := by omega
      rw [h16]
    rw [hbs]
    have hidx : ∀ bs ∈ (List.range (buf.length / 16)).map (· * 16),
        ∀ bit ∈ List.range 8, bs + bit * 2 + 1 < buf.length := by
      intro bs hbs' bit hbit
      simp only [List.mem_map, List.mem_range] at hbs'
      simp only [List.mem_range] at hbit
      obtain ⟨b, hb, rfl⟩ := hbs'
      omega
    obtain ⟨syms, hsyms, hlen⟩ := Demod.rel_blocks_ok buf _ [] hidx
    refine ⟨syms, hsyms, ?_⟩
    simpa using hlen

/-- C10 counterexample: on the one-sample buffer `[0]` the relative
extractor indexes past the end of the buffer and panics instead of
returning `Some` — refuting the claim that it is total and returns one
symbol per block for **every** input buffer. -/
theorem claim_C10_counterexample :
    Demod.extract_manchester_relative [0] 0 = .panicked ∧
      ∀ syms, Demod.extract_manchester_relative [0] 0 ≠ .ok syms := by
  constructor
  · decide
  · intro syms h
    rw [show Demod.extract_manchester_relative [0] 0 = RunRes.panicked by decide]
      at h
    cases h

/-- C10 witness: a 32-sample buffer (a multiple of 16) yields exactly
two symbols and no rejection. -/
theorem claim_C10_witness :
    Demod.extract_manchester_relative (List.replicate 32 5) 0 ≠ .rejected ∧
      ∃ syms, Demod.extract_manchester_relative (List.replicate 32 5) 0 =
          .ok syms ∧
        syms.length = (List.replicate 32 5 : List ℕ).length / 16 :=
  ⟨(claim_C10_relative_total (List.replicate 32 5) 0).1,
    (claim_C10_relative_total (List.replicate 32 5) 0).2 (by decide)⟩

namespace Crc

/-- Unfolded content of a successful flip attempt. -/
theorem crcAttempt_some (buf : List ℕ) (packet_crc num i : ℕ) (aug : List ℕ)
    (h : crcAttempt buf packet_crc num i = some aug) :
    aug = buf.set num (buf.getD num 0 ^^^ (1 <<< (7 - i))) ∧
      get_adsb_crc (aug.take (aug.length - 3)) = packet_crc := by
  simp only [crcAttempt] at h
  split at h
  · injection h with h
    subst h
    exact ⟨rfl, by assumption⟩
  · cases h

/-- A flip inside the three parity bytes can never match: it leaves the
11 data bytes unchanged, so the recomputed CRC is still the (mismatched)
`calc_crc`. -/
theorem crcAttempt_none_of_parity_byte (buf : List ℕ) (calc_crc packet_crc num i : ℕ)
    (hlen : buf.length = 14)
    (hcalc : calc_crc = get_adsb_crc (buf.take 11))
    (hne : calc_crc ≠ packet_crc) (hnum : 11 ≤ num) :
    crcAttempt buf packet_crc num i = none := by
  simp only [crcAttempt]
  have hl : (buf.set num (buf.getD num 0 ^^^ (1 <<< (7 - i)))).length = 14 := by
    rw [List.length_set, hlen]
  rw [hl]
  have htake : (buf.set num (buf.getD num 0 ^^^ (1 <<< (7 - i)))).take (14 - 3) =
      buf.take 11 := by
    rw [show (14 : ℕ) - 3 = 11 from rfl, List.set_take]
    exact List.set_eq_of_length_le (by rw [List.length_take, hlen]; omega)
  rw [htake, if_neg (by rw [← hcalc]; exact fun h => hne h)]

/-- With a genuine mismatch, `try_crc_recovery` coincides with the
88-attempt data-bit search, and any frame it returns has its recomputed
CRC equal to the received parity and its parity bytes untouched. -/
theorem try_crc_recovery_spec (buf : List ℕ) (calc_crc packet_crc : ℕ)
    (hlen : buf.length = 14)
    (hcalc : calc_crc = get_adsb_crc (buf.take 11))
    (hne : calc_crc ≠ packet_crc) :
    try_crc_recovery buf calc_crc packet_crc = dataBitSearch buf packet_crc ∧
      ∀ aug, dataBitSearch buf packet_crc = some aug →
        get_adsb_crc (aug.take 11) = packet_crc ∧ aug.drop 11 = buf.drop 11 ∧
          aug.length = 14 := by
  constructor
  · unfold try_crc_recovery dataBitSearch
    rw [hlen, show List.range 14 = List.range 11 ++ [11, 12, 13] by decide,
      List.flatMap_append, List.findSome?_append]
    have hnone : List.findSome?
        (fun p => crcAttempt buf packet_crc p.1 p.2)
        (([11, 12, 13] : List ℕ).flatMap fun num =>
          (List.range 8).map fun i => (num, i)) = none := by
      rw [List.findSome?_eq_none_iff]
      intro p hp
      simp only [List.mem_flatMap, List.mem_map, List.mem_range] at hp
      obtain ⟨num, hnum, i, _, rfl⟩ := hp
      have h11 : 11 ≤ num := by
        simp only [List.mem_cons, List.not_mem_nil, or_false] at hnum
        rcases hnum with rfl | rfl | rfl <;> omega
      exact crcAttempt_none_of_parity_byte buf calc_crc packet_crc num i hlen
        hcalc hne h11
    rw [hnone, Option.or_none]
  · intro aug haug
    obtain ⟨p, hp, hsome⟩ := List.exists_of_findSome?_eq_some haug
    simp only [List.mem_flatMap, List.mem_map, List.mem_range] at hp
    obtain ⟨num, hnum, i, _, rfl⟩ := hp
    obtain ⟨hset, hcrc⟩ := crcAttempt_some buf packet_crc num i aug hsome
    have hauglen : aug.length = 14 := by rw [hset, List.length_set, hlen]
    refine ⟨?_, ?_, hauglen⟩
    · rw [show (11 : ℕ) = aug.length - 3 by omega]
      exact hcrc
    · rw [hset, List.drop_set, if_pos (by omega)]

end Crc

namespace Demod

/-- On a buffer whose length is a multiple of 16, the relative extractor
yields one symbol per 16-sample block. -/
theorem rel_extract_ok (buf : List ℕ) (high : ℕ) (h : buf.length % 16 = 0) :
    ∃ syms, extract_manchester_relative buf high = .ok syms ∧
      syms.length = buf.length / 16 := by
  unfold extract_manchester_relative
  obtain ⟨k, hk⟩ : ∃ k, buf.length = 16 * k := ⟨buf.length / 16, by omega⟩
  have hbs : blockStarts buf.length = (List.range (buf.length / 16)).map (· * 16) := by
    unfold blockStarts
    rw [hk]
    have h16 : (16 * k + 15) / 16 = 16 * k / 16 := by omega
    rw [h16]
  rw [hbs]
  have hidx : ∀ bs ∈ (List.range (buf.length / 16)).map (· * 16),
      ∀ bit ∈ List.range 8, bs + bit * 2 + 1 < buf.length := by
    intro bs hbs' bit hbit
    simp only [List.mem_map, List.mem_range] at hbs'
    simp only [List.mem_range] at hbit
    obtain ⟨b, hb, rfl⟩ := hbs'
    omega
  obtain ⟨syms, hsyms, hslen⟩ := rel_blocks_ok buf _ [] hidx
  refine ⟨syms, hsyms, ?_⟩
  simpa using hslen

/-- Defaulted lookups agree beyond index 11 on lists equal from index 11
on. -/
theorem getD_eq_of_drop11_eq (l₁ l₂ : List ℕ) (h : l₁.drop 11 = l₂.drop 11)
    (k : ℕ) (hk : 11 ≤ k) : l₁.getD k 0 = l₂.getD k 0 := by
  have h2 := congrArg (fun l => l[k - 11]?) h
  simp only [List.getElem?_drop] at h2
  rw [show 11 + (k - 11) = k by omega] at h2
  rw [List.getD_eq_getElem?_getD, List.getD_eq_getElem?_getD, h2]

end Demod

namespace Demod

/-- Every frame `extract_packet` accepts from a 224-sample buffer has
the CRC of its 11 data bytes equal to the parity assembled from its own
last three bytes — both on the direct path and after single-bit
recovery. -/
theorem extract_packet_crc_ok (derate : ℕ → ℕ) (mbuf : List ℕ) (high : ℕ)
    (pkt : List ℕ) (hmlen : mbuf.length = 224)
    (hok : extract_packet derate mbuf high = .ok pkt) :
    Crc.get_adsb_crc (pkt.take 11) =
      pkt.getD 13 0 ||| (pkt.getD 12 0 <<< 8) ||| (pkt.getD 11 0 <<< 16) := by
  obtain ⟨syms, hsyms, hslen⟩ := rel_extract_ok mbuf (derate high) (by omega)
  rw [hmlen] at hslen
  simp only [extract_packet] at hok
  rw [hsyms] at hok
  simp only [decode_packet] at hok
  set packet := syms.map fun encoded =>
    (List.range 8).foldl
      (fun byte i =>
        let hi := (encoded >>> (15 - i * 2)) &&& 1
        let lo := (encoded >>> (14 - i * 2)) &&& 1
        if hi = 0 ∧ lo = 1 then byte ||| (1 <<< (7 - i)) else byte)
      0 with hpacket
  have hplen : packet.length = 14 := by
    rw [hpacket, List.length_map, hslen]
  rw [hplen] at hok
  by_cases hcmp : Crc.get_adsb_crc (packet.take (14 - 3)) =
      packet.getD (14 - 1) 0 ||| (packet.getD (14 - 2) 0 <<< 8) |||
        (packet.getD (14 - 3) 0 <<< 16)
  · rw [if_neg (not_not_intro hcmp)] at hok
    have hpkt : pkt = packet := by
      injection hok with h
      exact h.symm
    subst hpkt
    simpa using hcmp
  · rw [if_pos hcmp] at hok
    have hcalc : Crc.get_adsb_crc (packet.take (14 - 3)) =
        Crc.get_adsb_crc (packet.take 11) := rfl
    obtain ⟨heq, hsound⟩ := Crc.try_crc_recovery_spec packet _ _ hplen
      (hcalc.symm) hcmp
    rw [heq] at hok
    cases hrec : Crc.dataBitSearch packet
        (packet.getD (14 - 1) 0 ||| (packet.getD (14 - 2) 0 <<< 8) |||
          (packet.getD (14 - 3) 0 <<< 16)) with
    | none => rw [hrec] at hok; cases hok
    | some p =>
      rw [hrec] at hok
      have hpkt : pkt = p := by
        injection hok with h
        exact h.symm
      rw [hpkt]
      obtain ⟨hcrc11, hdrop, _⟩ := hsound p hrec
      rw [hcrc11]
      have e13 := getD_eq_of_drop11_eq p packet hdrop 13 (by omega)
      have e12 := getD_eq_of_drop11_eq p packet hdrop 12 (by omega)
      have e11 := getD_eq_of_drop11_eq p packet hdrop 11 (by omega)
      rw [show (14 : ℕ) - 1 = 13 from rfl, show (14 : ℕ) - 2 = 12 from rfl,
        show (14 : ℕ) - 3 = 11 from rfl, e13, e12, e11]

end Demod

/-- C7: for a 14-byte frame whose computed CRC-24 over the first 11
bytes differs from the received parity, `try_crc_recovery` coincides
with the 88-attempt data-bit search (bytes 0..10, bit 7 down to bit 0,
first match wins — the 24 extra parity-byte flips the source also tries
can never match, and when no data-bit flip matches the frame is
rejected); any frame it returns, and more generally every frame the
demodulator's `extract_packet` accepts from a 224-sample buffer, has
the CRC of its first 11 bytes equal to the parity assembled from its
last 3 bytes. -/
theorem claim_C7_crc_recovery (buf : List ℕ) (calc_crc packet_crc : ℕ)
    (hlen : buf.length = 14)
    (hcalc : calc_crc = Crc.get_adsb_crc (buf.take 11))
    (hpc : packet_crc =
      buf.getD 13 0 ||| (buf.getD 12 0 <<< 8) ||| (buf.getD 11 0 <<< 16))
    (hne : calc_crc ≠ packet_crc) :
    Crc.try_crc_recovery buf calc_crc packet_crc =
        Crc.dataBitSearch buf packet_crc ∧
      (∀ aug, Crc.try_crc_recovery buf calc_crc packet_crc = some aug →
        Crc.get_adsb_crc (aug.take 11) =
          aug.getD 13 0 ||| (aug.getD 12 0 <<< 8) ||| (aug.getD 11 0 <<< 16)) ∧
      (∀ derate mbuf high pkt, mbuf.length = 224 →
        Demod.extract_packet derate mbuf high = .ok pkt →
        Crc.get_adsb_crc (pkt.take 11) =
          pkt.getD 13 0 ||| (pkt.getD 12 0 <<< 8) ||| (pkt.getD 11 0 <<< 16)) := by
  obtain ⟨heq, hsound⟩ := Crc.try_crc_recovery_spec buf calc_crc packet_crc
    hlen hcalc hne
  refine ⟨heq, ?_, ?_⟩
  · intro aug haug
    rw [heq] at haug
    obtain ⟨hcrc11, hdrop, _⟩ := hsound aug haug
    rw [hcrc11, hpc]
    have e13 := Demod.getD_eq_of_drop11_eq aug buf hdrop 13 (by omega)
    have e12 := Demod.getD_eq_of_drop11_eq aug buf hdrop 12 (by omega)
    have e11 := Demod.getD_eq_of_drop11_eq aug buf hdrop 11 (by omega)
    rw [e13, e12, e11]
  · intro derate mbuf high pkt hmlen hok
    exact Demod.extract_packet_crc_ok derate mbuf high pkt hmlen hok

/-- A 14-byte frame with a single bit error: scenario 3's data portion
with byte 2 corrupted from `0x6B` to `0x6A`, followed by the original
parity `AA 4B DA` (the repository's own `test_get_adsb_crc_real_invalid`
vector). -/
def c7buf : List ℕ :=
  [0x8D, 0x40, 0x6A, 0x90, 0x20, 0x15, 0xA6, 0x78, 0xD4, 0xD2, 0x20,
    0xAA, 0x4B, 0xDA]

set_option maxRecDepth 8000 in
/-- C7 witness: the recovery characterisation applied to the corrupted
scenario-3 frame, whose computed CRC genuinely mismatches `0xAA4BDA`. -/
theorem claim_C7_witness :
    Crc.try_crc_recovery c7buf (Crc.get_adsb_crc (c7buf.take 11)) 0xAA4BDA =
        Crc.dataBitSearch c7buf 0xAA4BDA ∧
      (∀ aug, Crc.try_crc_recovery c7buf (Crc.get_adsb_crc (c7buf.take 11))
          0xAA4BDA = some aug →
        Crc.get_adsb_crc (aug.take 11) =
          aug.getD 13 0 ||| (aug.getD 12 0 <<< 8) ||| (aug.getD 11 0 <<< 16)) ∧
      (∀ derate mbuf high pkt, mbuf.length = 224 →
        Demod.extract_packet derate mbuf high = .ok pkt →
        Crc.get_adsb_crc (pkt.take 11) =
          pkt.getD 13 0 ||| (pkt.getD 12 0 <<< 8) ||| (pkt.getD 11 0 <<< 16)) :=
  claim_C7_crc_recovery c7buf (Crc.get_adsb_crc (c7buf.take 11)) 0xAA4BDA
    (by decide) rfl (by decide) (by decide)

/-- C5: contrary to the claim, a magnitude batch shorter than 240
samples does **not** pass through the scan loop quietly.  The loop bound
`mag_vec.len() - (16 + 112 * 2)` is computed in unsigned `usize`
arithmetic, so for the empty batch it underflows: a debug build panics
at the subtraction itself, and a release build (modelled here) wraps to
`2^64 - 240`, upon which the very first 16-sample slice `mag_vec[0..16]`
is out of bounds and panics.  No frames are emitted either way, but the
stage dies instead of moving on to the next batch. -/
theorem claim_C5_short_batch_panics (derate : ℕ → ℕ) :
    Adsb.process_scan derate [] = .panicked := rfl

/-- A DF17 airborne-position frame whose capability bits `CA[2:0]` are
all set: byte 0 is `0x8F` (`DF = 17`, `CA = 7`). -/
def c9frame : List ℕ :=
  [0x8F, 0x40, 0x62, 0x1D, 0x58, 0xC3, 0x82, 0xD6, 0x90, 0xC8, 0xAC,
    0x28, 0x63, 0xA7]

/-- C9: the decoder sets `downlink_format` to the top five bits of
byte 0 as claimed, but the capability is computed as `packet[0] & 5`
(mask `0b101`), not the claimed low three bits `packet[0] & 7`: on a
frame with byte 0 = `0x8F` (CA = 7) the stored capability is 5, so bit 1
of CA is dropped rather than preserved. -/
theorem claim_C9_capability_mask :
    (∀ (packet : List ℕ) (now : ℤ),
      (Packet.AdsbPacket.new packet now).downlink_format =
          packet.getD 0 0 >>> 3 ∧
        (Packet.AdsbPacket.new packet now).capability = packet.getD 0 0 &&& 5) ∧
      (Packet.AdsbPacket.new c9frame 0).downlink_format = 17 ∧
      (Packet.AdsbPacket.new c9frame 0).capability = 5 ∧
      (0x8F : ℕ) &&& 7 = 7 ∧ (5 : ℕ) ≠ 7 := by
  refine ⟨fun packet now => ⟨rfl, rfl⟩, ?_, ?_, ?_, ?_⟩
  · decide
  · decide
  · decide
  · decide

/-- Bridge from the computable `Rat.floor` used in the embedding to the
`Int.floor` norm_num evaluates. -/
theorem qfloor_eq (q : ℚ) : q.floor = ⌊q⌋ := by
  rw [Rat.floor_def', Rat.floor_def]

/-- Scenario 4's odd airborne-position frame
`8D40621D58C386435CC412692AD6`. -/
def oddFrameBytes : List ℕ :=
  [0x8D, 0x40, 0x62, 0x1D, 0x58, 0xC3, 0x86, 0x43, 0x5C, 0xC4, 0x12,
    0x69, 0x2A, 0xD6]

/-- Scenario 4's even airborne-position frame
`8D40621D58C382D690C8AC2863A7`. -/
def evenFrameBytes : List ℕ :=
  [0x8D, 0x40, 0x62, 0x1D, 0x58, 0xC3, 0x82, 0xD6, 0x90, 0xC8, 0xAC,
    0x28, 0x63, 0xA7]

/-- Scenario 1's identification frame `8d7c6b3020293532d70820fc8090`. -/
def identFrameBytes : List ℕ :=
  [0x8D, 0x7C, 0x6B, 0x30, 0x20, 0x29, 0x35, 0x32, 0xD7, 0x08, 0x20,
    0xFC, 0x80, 0x90]

/-- The NL lookup pinned to 36, the value the repository's own
`test_zone_calcuation` asserts for latitude 52.2572. -/
def nl36 : ℚ → ℕ := fun _ => 36

/-- The latitude the scenario-4 pair resolves to: 52.25720214843750. -/
theorem lat_eval :
    AircraftMod.calculate_latitude 93000 74158 Msgs.CprFormat.Odd =
      428091 / 8192 := by
  simp only [AircraftMod.calculate_latitude, CprMath.convert_cpr_to_float,
    CprMath.rust_fmod, CprMath.truncQ, CprMath.NUM_ZONES, qfloor_eq]
  norm_num

/-- The NL value of the resolved scenario-4 latitude: none of the
special cases of `calc_num_zones` applies, so it is the pinned lookup
value 36. -/
theorem calc_nz_eval (nlCore : ℚ → ℕ) (hnl : nlCore (428091 / 8192 : ℚ) = 36) :
    CprMath.calc_num_zones nlCore (428091 / 8192 : ℚ) = 36 := by
  unfold CprMath.calc_num_zones
  rw [if_neg (by norm_num), if_neg (by norm_num), if_neg (by norm_num)]
  exact hnl

/-- The longitude of the scenario-4 pair under the source's formula
(final term `lon_cpr_o`): 3.829498291015625. -/
theorem lon_eval (nlCore : ℚ → ℕ) (hnl : nlCore (428091 / 8192 : ℚ) = 36) :
    AircraftMod.calculate_longitude nlCore 51372 50194 (428091 / 8192)
      Msgs.CprFormat.Odd = 125485 / 32768 := by
  have hnz := calc_nz_eval nlCore hnl
  simp only [AircraftMod.calculate_longitude]
  rw [hnz]
  simp only [CprMath.convert_cpr_to_float, CprMath.rust_fmod, CprMath.truncQ,
    qfloor_eq]
  norm_num

/-- The scenario-4 geographic position under the source's formulas. -/
theorem geo_eval (nlCore : ℚ → ℕ) (hnl : nlCore (428091 / 8192 : ℚ) = 36) :
    AircraftMod.calculate_geographic_position nlCore (93000, 51372)
        (74158, 50194) Msgs.CprFormat.Odd =
      { latitude := 428091 / 8192, longitude := 125485 / 32768 } := by
  simp only [AircraftMod.calculate_geographic_position]
  rw [lat_eval, lon_eval nlCore hnl]

/-- The scenario-4 ingestion harness: a fresh aircraft record for ICAO
`0x40621D` created at `t0`, fed the odd frame at `t1` and then the even
frame at `t2`. -/
def scenario4Aircraft (nlCore : ℚ → ℕ) (t0 t1 t2 : ℤ) : AircraftMod.Aircraft :=
  AircraftMod.Aircraft.handle_packet nlCore
    (AircraftMod.Aircraft.handle_packet nlCore
      (AircraftMod.Aircraft.new 0x40621D t0)
      (Packet.AdsbPacket.new oddFrameBytes t1))
    (Packet.AdsbPacket.new evenFrameBytes t2)

/-- The decoded ME of the scenario-4 odd frame. -/
def posOddRec : Msgs.AircraftPosition :=
  { raw_msg := [0x58, 0xC3, 0x86, 0x43, 0x5C, 0xC4, 0x12], msg_type := 11,
    surveillance_status := 0, nic_supplement := 0, altitude := 38000,
    cpr_time := 0, cpr_format := Msgs.CprFormat.Odd, cpr_latitude := 74158,
    cpr_longitude := 50194 }

/-- The decoded ME of the scenario-4 even frame. -/
def posEvenRec : Msgs.AircraftPosition :=
  { raw_msg := [0x58, 0xC3, 0x82, 0xD6, 0x90, 0xC8, 0xAC], msg_type := 11,
    surveillance_status := 0, nic_supplement := 0, altitude := 38000,
    cpr_time := 0, cpr_format := Msgs.CprFormat.Even, cpr_latitude := 93000,
    cpr_longitude := 51372 }

/-- C1 (amended): when an airborne-position frame for the record's ICAO
arrives — of either parity — `handle_packet` updates the altitude and
sets `last_contact`; whenever the opposite-parity slot is populated it
stores the frame into its own parity slot, keeps the opposite slot, and
**recomputes and stores the geographic position**, whatever the age of
the opposite slot: no reception-timestamp comparison exists in
`handle_packet` (the slots do not even carry timestamps), so the 10 s
window of the claim is not enforced and the position does not remain
unchanged (`claim_C1_counterexample` shows a > 10 s pair resolving). -/
theorem claim_C1_store_ignores_pair_age (nlCore : ℚ → ℕ)
    (a : AircraftMod.Aircraft) (pkt : Packet.AdsbPacket)
    (pos : Msgs.AircraftPosition)
    (hicao : pkt.icao = a.icao)
    (hmsg : pkt.msg = Msgs.AdsbMsgType.AircraftPosition pos) :
    (AircraftMod.Aircraft.handle_packet nlCore a pkt).altitude =
        pos.altitude ∧
      (AircraftMod.Aircraft.handle_packet nlCore a pkt).last_contact =
        pkt.time_processed ∧
      (∀ odd_pos, pos.cpr_format = Msgs.CprFormat.Even →
        a.last_odd_packet = some odd_pos →
        (AircraftMod.Aircraft.handle_packet nlCore a pkt).last_even_packet =
            some pos ∧
          (AircraftMod.Aircraft.handle_packet nlCore a pkt).last_odd_packet =
            some odd_pos ∧
          (AircraftMod.Aircraft.handle_packet nlCore a pkt).geo_position =
            some (AircraftMod.calculate_geographic_position nlCore
              pos.get_cpr_position odd_pos.get_cpr_position
              Msgs.CprFormat.Odd)) ∧
      (∀ even_pos, pos.cpr_format = Msgs.CprFormat.Odd →
        a.last_even_packet = some even_pos →
        (AircraftMod.Aircraft.handle_packet nlCore a pkt).last_odd_packet =
            some pos ∧
          (AircraftMod.Aircraft.handle_packet nlCore a pkt).last_even_packet =
            some even_pos ∧
          (AircraftMod.Aircraft.handle_packet nlCore a pkt).geo_position =
            some (AircraftMod.calculate_geographic_position nlCore
              even_pos.get_cpr_position pos.get_cpr_position
              Msgs.CprFormat.Even)) := by
  unfold AircraftMod.Aircraft.handle_packet
  rw [if_neg (fun h => h hicao), hmsg]
  refine ⟨?_, ?_, ?_, ?_⟩
  · rcases hfmt : pos.cpr_format with - | -
    · simp only [hfmt]
      rcases hslot : a.last_odd_packet with - | odd_pos <;> simp [hslot]
    · simp only [hfmt]
      rcases hslot : a.last_even_packet with - | even_pos <;> simp [hslot]
  · rcases hfmt : pos.cpr_format with - | -
    · simp only [hfmt]
      rcases hslot : a.last_odd_packet with - | odd_pos <;> simp [hslot]
    · simp only [hfmt]
      rcases hslot : a.last_even_packet with - | even_pos <;> simp [hslot]
  · intro odd_pos hfmt hodd
    simp only [hfmt, hodd]
    exact ⟨trivial, trivial, trivial⟩
  · intro even_pos hfmt heven
    simp only [hfmt, heven]
    exact ⟨trivial, trivial, trivial⟩

/-- C1 counterexample: scenario 4's frames ingested 100 seconds apart —
far beyond the claimed 10 s window — still produce a resolved position
(the fresh record's position was `none`, so it did not remain
unchanged). -/
theorem claim_C1_counterexample :
    (scenario4Aircraft nl36 0 0 100).geo_position ≠ none ∧
      (Packet.AdsbPacket.new evenFrameBytes 100).time_processed -
          (Packet.AdsbPacket.new oddFrameBytes 0).time_processed > 10 := by
  constructor
  · have h : (scenario4Aircraft nl36 0 0 100).geo_position =
        some (AircraftMod.calculate_geographic_position nl36 (93000, 51372)
          (74158, 50194) Msgs.CprFormat.Odd) := rfl
    rw [h]
    simp
  · decide

/-- C1 witness: both parity arms at the scenario-4 frames ingested 100
seconds apart — the even frame landing on a populated odd slot and the
odd frame landing on a populated even slot — plus the altitude and
`last_contact` updates of the even ingestion. -/
theorem claim_C1_witness :
    ((AircraftMod.Aircraft.handle_packet nl36
          (AircraftMod.Aircraft.handle_packet nl36
            (AircraftMod.Aircraft.new 0x40621D 0)
            (Packet.AdsbPacket.new oddFrameBytes 0))
          (Packet.AdsbPacket.new evenFrameBytes 100)).last_even_packet =
        some posEvenRec ∧
      (AircraftMod.Aircraft.handle_packet nl36
          (AircraftMod.Aircraft.handle_packet nl36
            (AircraftMod.Aircraft.new 0x40621D 0)
            (Packet.AdsbPacket.new oddFrameBytes 0))
          (Packet.AdsbPacket.new evenFrameBytes 100)).last_odd_packet =
        some posOddRec ∧
      (AircraftMod.Aircraft.handle_packet nl36
          (AircraftMod.Aircraft.handle_packet nl36
            (AircraftMod.Aircraft.new 0x40621D 0)
            (Packet.AdsbPacket.new oddFrameBytes 0))
          (Packet.AdsbPacket.new evenFrameBytes 100)).geo_position =
        some (AircraftMod.calculate_geographic_position nl36
          posEvenRec.get_cpr_position posOddRec.get_cpr_position
          Msgs.CprFormat.Odd)) ∧
    ((AircraftMod.Aircraft.handle_packet nl36
          (AircraftMod.Aircraft.handle_packet nl36
            (AircraftMod.Aircraft.new 0x40621D 0)
            (Packet.AdsbPacket.new evenFrameBytes 0))
          (Packet.AdsbPacket.new oddFrameBytes 100)).last_odd_packet =
        some posOddRec ∧
      (AircraftMod.Aircraft.handle_packet nl36
          (AircraftMod.Aircraft.handle_packet nl36
            (AircraftMod.Aircraft.new 0x40621D 0)
            (Packet.AdsbPacket.new evenFrameBytes 0))
          (Packet.AdsbPacket.new oddFrameBytes 100)).last_even_packet =
        some posEvenRec ∧
      (AircraftMod.Aircraft.handle_packet nl36
          (AircraftMod.Aircraft.handle_packet nl36
            (AircraftMod.Aircraft.new 0x40621D 0)
            (Packet.AdsbPacket.new evenFrameBytes 0))
          (Packet.AdsbPacket.new oddFrameBytes 100)).geo_position =
        some (AircraftMod.calculate_geographic_position nl36
          posEvenRec.get_cpr_position posOddRec.get_cpr_position
          Msgs.CprFormat.Even)) ∧
    (AircraftMod.Aircraft.handle_packet nl36
        (AircraftMod.Aircraft.handle_packet nl36
          (AircraftMod.Aircraft.new 0x40621D 0)
          (Packet.AdsbPacket.new oddFrameBytes 0))
        (Packet.AdsbPacket.new evenFrameBytes 100)).altitude =
      posEvenRec.altitude ∧
    (AircraftMod.Aircraft.handle_packet nl36
        (AircraftMod.Aircraft.handle_packet nl36
          (AircraftMod.Aircraft.new 0x40621D 0)
          (Packet.AdsbPacket.new oddFrameBytes 0))
        (Packet.AdsbPacket.new evenFrameBytes 100)).last_contact =
      (Packet.AdsbPacket.new evenFrameBytes 100).time_processed :=
  ⟨(claim_C1_store_ignores_pair_age nl36
      (AircraftMod.Aircraft.handle_packet nl36
        (AircraftMod.Aircraft.new 0x40621D 0)
        (Packet.AdsbPacket.new oddFrameBytes 0))
      (Packet.AdsbPacket.new evenFrameBytes 100) posEvenRec
      rfl rfl).2.2.1 posOddRec rfl rfl,
   (claim_C1_store_ignores_pair_age nl36
      (AircraftMod.Aircraft.handle_packet nl36
        (AircraftMod.Aircraft.new 0x40621D 0)
        (Packet.AdsbPacket.new evenFrameBytes 0))
      (Packet.AdsbPacket.new oddFrameBytes 100) posOddRec
      rfl rfl).2.2.2 posEvenRec rfl rfl,
   (claim_C1_store_ignores_pair_age nl36
      (AircraftMod.Aircraft.handle_packet nl36
        (AircraftMod.Aircraft.new 0x40621D 0)
        (Packet.AdsbPacket.new oddFrameBytes 0))
      (Packet.AdsbPacket.new evenFrameBytes 100) posEvenRec rfl rfl).1,
   (claim_C1_store_ignores_pair_age nl36
      (AircraftMod.Aircraft.handle_packet nl36
        (AircraftMod.Aircraft.new 0x40621D 0)
        (Packet.AdsbPacket.new oddFrameBytes 0))
      (Packet.AdsbPacket.new evenFrameBytes 100) posEvenRec rfl rfl).2.1⟩

/-- An odd airborne-position frame whose raw CPR latitude is 0 (frame
layout as in scenario 4: DF 17, ICAO `40621D`, type-code 11, 25 ft
altitude encoding; parity bytes zeroed — the store never rechecks
them).  Paired with `gateEvenFrameBytes` it forms a pair the program
itself maps to mismatching NL zones: raw odd latitude 0 puts the odd
zone candidate at exactly 0° — `calc_num_zones`' exact `lat = 0` branch,
NL = 59 — while raw even latitude 130000 puts the even candidate at
6·(59 + 130000/131072) ≈ 359.95°, inside the exact `lat > 87` branch,
NL = 1.  Both branches are literal in the source, so the mismatch holds
under **every** NL core. -/
def gateOddFrameBytes : List ℕ :=
  [0x8D, 0x40, 0x62, 0x1D, 0x58, 0xC3, 0x84, 0x00, 0x00, 0xC4, 0x12,
   0x00, 0x00, 0x00]

/-- The even counterpart of `gateOddFrameBytes`: raw CPR latitude
130000. -/
def gateEvenFrameBytes : List ℕ :=
  [0x8D, 0x40, 0x62, 0x1D, 0x58, 0xC3, 0x83, 0xF7, 0xA0, 0xC8, 0xAC,
   0x00, 0x00, 0x00]

/-- The decoded ME of `gateOddFrameBytes`. -/
def gateOddPosRec : Msgs.AircraftPosition :=
  { raw_msg := [0x58, 0xC3, 0x84, 0x00, 0x00, 0xC4, 0x12], msg_type := 11,
    surveillance_status := 0, nic_supplement := 0, altitude := 38000,
    cpr_time := 0, cpr_format := Msgs.CprFormat.Odd, cpr_latitude := 0,
    cpr_longitude := 50194 }

/-- The decoded ME of `gateEvenFrameBytes`. -/
def gateEvenPosRec : Msgs.AircraftPosition :=
  { raw_msg := [0x58, 0xC3, 0x83, 0xF7, 0xA0, 0xC8, 0xAC], msg_type := 11,
    surveillance_status := 0, nic_supplement := 0, altitude := 38000,
    cpr_time := 0, cpr_format := Msgs.CprFormat.Even, cpr_latitude := 130000,
    cpr_longitude := 51372 }

/-- A fresh record fed the gate pair: the odd frame at time 0, the even
frame at time 5. -/
def gateAircraft : AircraftMod.Aircraft :=
  AircraftMod.Aircraft.handle_packet nl36
    (AircraftMod.Aircraft.handle_packet nl36
      (AircraftMod.Aircraft.new 0x40621D 0)
      (Packet.AdsbPacket.new gateOddFrameBytes 0))
    (Packet.AdsbPacket.new gateEvenFrameBytes 5)

/-- The three outputs of the `cpr.rs` latitude computation on the gate
pair, odd frame older: the latitude index is 59, the selected even
candidate 6·(59 + 130000/131072) = 1474359/4096 ≈ 359.95° wraps to
−201/4096 ≈ −0.049°, and the unnormalised candidates are 1474359/4096
and 0. -/
theorem gate_lat_eval_odd :
    Cpr.calculate_latitude 130000 0 Msgs.CprFormat.Odd =
      (-201 / 4096, 1474359 / 4096, 0) := by
  simp only [Cpr.calculate_latitude, CprMath.convert_cpr_to_float,
    CprMath.rust_fmod, CprMath.truncQ, CprMath.NUM_ZONES, qfloor_eq,
    Prod.mk.injEq]
  norm_num

/-- The same pair with the even frame older: the selected odd candidate
is exactly 0°; the unnormalised candidates are the same. -/
theorem gate_lat_eval_even :
    Cpr.calculate_latitude 130000 0 Msgs.CprFormat.Even =
      (0, 1474359 / 4096, 0) := by
  simp only [Cpr.calculate_latitude, CprMath.convert_cpr_to_float,
    CprMath.rust_fmod, CprMath.truncQ, CprMath.NUM_ZONES, qfloor_eq,
    Prod.mk.injEq]
  norm_num

/-- On the gate pair's candidates `calc_num_zones` takes its exact
special-case branches — `lat > 87` on the even candidate and `lat = 0`
on the odd one — so the NL values are 1 and 59 under every NL core. -/
theorem gate_nz (nlCore : ℚ → ℕ) :
    CprMath.calc_num_zones nlCore (1474359 / 4096 : ℚ) = 1 ∧
      CprMath.calc_num_zones nlCore (0 : ℚ) = 59 := by
  unfold CprMath.calc_num_zones
  constructor
  · rw [if_neg (by norm_num), if_neg (by norm_num),
      if_pos (Or.inr (by norm_num))]
  · rw [if_pos rfl]

/-- C2 (amended): when the candidate latitudes of an even/odd pair fall
in different NL zones, only the standalone solver in `cpr.rs` returns
"not resolvable" (`None`) — and it discards nothing.  The aircraft
store's own combine path (`adsb/aircraft.rs`) performs no
zone-consistency check for an arriving frame of either parity: it
stores a computed position anyway and keeps both CprPair slots. -/
theorem claim_C2_zone_gate (nlCore : ℚ → ℕ) :
    (∀ (a : AircraftMod.Aircraft) (pkt : Packet.AdsbPacket)
        (pos odd_pos : Msgs.AircraftPosition),
      pkt.icao = a.icao →
      pkt.msg = Msgs.AdsbMsgType.AircraftPosition pos →
      pos.cpr_format = Msgs.CprFormat.Even →
      a.last_odd_packet = some odd_pos →
      CprMath.calc_num_zones nlCore
          (Cpr.calculate_latitude pos.cpr_latitude odd_pos.cpr_latitude
            Msgs.CprFormat.Odd).2.1 ≠
        CprMath.calc_num_zones nlCore
          (Cpr.calculate_latitude pos.cpr_latitude odd_pos.cpr_latitude
            Msgs.CprFormat.Odd).2.2 →
      (AircraftMod.Aircraft.handle_packet nlCore a pkt).geo_position =
          some (AircraftMod.calculate_geographic_position nlCore
            pos.get_cpr_position odd_pos.get_cpr_position
            Msgs.CprFormat.Odd) ∧
        (AircraftMod.Aircraft.handle_packet nlCore a pkt).last_odd_packet =
          some odd_pos ∧
        (AircraftMod.Aircraft.handle_packet nlCore a pkt).last_even_packet =
          some pos) ∧
    (∀ (a : AircraftMod.Aircraft) (pkt : Packet.AdsbPacket)
        (pos even_pos : Msgs.AircraftPosition),
      pkt.icao = a.icao →
      pkt.msg = Msgs.AdsbMsgType.AircraftPosition pos →
      pos.cpr_format = Msgs.CprFormat.Odd →
      a.last_even_packet = some even_pos →
      CprMath.calc_num_zones nlCore
          (Cpr.calculate_latitude even_pos.cpr_latitude pos.cpr_latitude
            Msgs.CprFormat.Even).2.1 ≠
        CprMath.calc_num_zones nlCore
          (Cpr.calculate_latitude even_pos.cpr_latitude pos.cpr_latitude
            Msgs.CprFormat.Even).2.2 →
      (AircraftMod.Aircraft.handle_packet nlCore a pkt).geo_position =
          some (AircraftMod.calculate_geographic_position nlCore
            even_pos.get_cpr_position pos.get_cpr_position
            Msgs.CprFormat.Even) ∧
        (AircraftMod.Aircraft.handle_packet nlCore a pkt).last_even_packet =
          some even_pos ∧
        (AircraftMod.Aircraft.handle_packet nlCore a pkt).last_odd_packet =
          some pos) ∧
    (∀ (e o : ℕ × ℕ) (first : Msgs.CprFormat),
      CprMath.calc_num_zones nlCore
          (Cpr.calculate_latitude e.1 o.1 first).2.1 ≠
        CprMath.calc_num_zones nlCore
          (Cpr.calculate_latitude e.1 o.1 first).2.2 →
      Cpr.calculate_geographic_position nlCore e o first = none) := by
  refine ⟨?_, ?_, ?_⟩
  · intro a pkt pos odd_pos hicao hmsg hfmt hodd _hmis
    unfold AircraftMod.Aircraft.handle_packet
    rw [if_neg (fun h => h hicao), hmsg]
    simp only [hfmt, hodd]
    exact ⟨trivial, trivial, trivial⟩
  · intro a pkt pos even_pos hicao hmsg hfmt heven _hmis
    unfold AircraftMod.Aircraft.handle_packet
    rw [if_neg (fun h => h hicao), hmsg]
    simp only [hfmt, heven]
    exact ⟨trivial, trivial, trivial⟩
  · intro e o first hmis
    unfold Cpr.calculate_geographic_position
    rw [if_pos hmis]

/-- C2 counterexample: the gate pair's candidate NLs genuinely mismatch
in the program — 1 versus 59, by `calc_num_zones`' own exact
special-case branches, so under the repo-pinned NL core as under any
other — yet the aircraft store still resolves and stores a position and
keeps the older odd slot, refuting the claim that no position is
produced or stored and the older slot is discarded. -/
theorem claim_C2_counterexample :
    CprMath.calc_num_zones nl36
        (Cpr.calculate_latitude 130000 0 Msgs.CprFormat.Odd).2.1 ≠
      CprMath.calc_num_zones nl36
        (Cpr.calculate_latitude 130000 0 Msgs.CprFormat.Odd).2.2 ∧
      gateAircraft.geo_position ≠ none ∧
      gateAircraft.last_odd_packet ≠ none := by
  refine ⟨?_, ?_, ?_⟩
  · rw [gate_lat_eval_odd]
    show CprMath.calc_num_zones nl36 (1474359 / 4096 : ℚ) ≠
      CprMath.calc_num_zones nl36 0
    rw [(gate_nz nl36).1, (gate_nz nl36).2]
    decide
  · have h : gateAircraft.geo_position =
        some (AircraftMod.calculate_geographic_position nl36
          (130000, 51372) (0, 50194) Msgs.CprFormat.Odd) := rfl
    rw [h]
    simp
  · have h : gateAircraft.last_odd_packet = some gateOddPosRec := rfl
    rw [h]
    simp

/-- C2 witness: all three parts at the gate pair — the even frame
landing on a populated odd slot, the odd frame landing on a populated
even slot, and the standalone `cpr.rs` solver on the raw pair. -/
theorem claim_C2_witness :
    ((AircraftMod.Aircraft.handle_packet nl36
          (AircraftMod.Aircraft.handle_packet nl36
            (AircraftMod.Aircraft.new 0x40621D 0)
            (Packet.AdsbPacket.new gateOddFrameBytes 0))
          (Packet.AdsbPacket.new gateEvenFrameBytes 5)).geo_position =
        some (AircraftMod.calculate_geographic_position nl36
          gateEvenPosRec.get_cpr_position gateOddPosRec.get_cpr_position
          Msgs.CprFormat.Odd) ∧
      (AircraftMod.Aircraft.handle_packet nl36
          (AircraftMod.Aircraft.handle_packet nl36
            (AircraftMod.Aircraft.new 0x40621D 0)
            (Packet.AdsbPacket.new gateOddFrameBytes 0))
          (Packet.AdsbPacket.new gateEvenFrameBytes 5)).last_odd_packet =
        some gateOddPosRec ∧
      (AircraftMod.Aircraft.handle_packet nl36
          (AircraftMod.Aircraft.handle_packet nl36
            (AircraftMod.Aircraft.new 0x40621D 0)
            (Packet.AdsbPacket.new gateOddFrameBytes 0))
          (Packet.AdsbPacket.new gateEvenFrameBytes 5)).last_even_packet =
        some gateEvenPosRec) ∧
    ((AircraftMod.Aircraft.handle_packet nl36
          (AircraftMod.Aircraft.handle_packet nl36
            (AircraftMod.Aircraft.new 0x40621D 0)
            (Packet.AdsbPacket.new gateEvenFrameBytes 0))
          (Packet.AdsbPacket.new gateOddFrameBytes 5)).geo_position =
        some (AircraftMod.calculate_geographic_position nl36
          gateEvenPosRec.get_cpr_position gateOddPosRec.get_cpr_position
          Msgs.CprFormat.Even) ∧
      (AircraftMod.Aircraft.handle_packet nl36
          (AircraftMod.Aircraft.handle_packet nl36
            (AircraftMod.Aircraft.new 0x40621D 0)
            (Packet.AdsbPacket.new gateEvenFrameBytes 0))
          (Packet.AdsbPacket.new gateOddFrameBytes 5)).last_even_packet =
        some gateEvenPosRec ∧
      (AircraftMod.Aircraft.handle_packet nl36
          (AircraftMod.Aircraft.handle_packet nl36
            (AircraftMod.Aircraft.new 0x40621D 0)
            (Packet.AdsbPacket.new gateEvenFrameBytes 0))
          (Packet.AdsbPacket.new gateOddFrameBytes 5)).last_odd_packet =
        some gateOddPosRec) ∧
    Cpr.calculate_geographic_position nl36 (130000, 51372) (0, 50194)
      Msgs.CprFormat.Odd = none := by
  have h := claim_C2_zone_gate nl36
  have hmisO : CprMath.calc_num_zones nl36
      (Cpr.calculate_latitude 130000 0 Msgs.CprFormat.Odd).2.1 ≠
        CprMath.calc_num_zones nl36
      (Cpr.calculate_latitude 130000 0 Msgs.CprFormat.Odd).2.2 := by
    rw [gate_lat_eval_odd]
    show CprMath.calc_num_zones nl36 (1474359 / 4096 : ℚ) ≠
      CprMath.calc_num_zones nl36 0
    rw [(gate_nz nl36).1, (gate_nz nl36).2]
    decide
  have hmisE : CprMath.calc_num_zones nl36
      (Cpr.calculate_latitude 130000 0 Msgs.CprFormat.Even).2.1 ≠
        CprMath.calc_num_zones nl36
      (Cpr.calculate_latitude 130000 0 Msgs.CprFormat.Even).2.2 := by
    rw [gate_lat_eval_even]
    show CprMath.calc_num_zones nl36 (1474359 / 4096 : ℚ) ≠
      CprMath.calc_num_zones nl36 0
    rw [(gate_nz nl36).1, (gate_nz nl36).2]
    decide
  exact ⟨h.1 _ _ gateEvenPosRec gateOddPosRec rfl rfl rfl rfl hmisO,
    h.2.1 _ _ gateOddPosRec gateEvenPosRec rfl rfl rfl rfl hmisE,
    h.2.2 (130000, 51372) (0, 50194) Msgs.CprFormat.Odd hmisO⟩

/-- The aircraft record after the scenario-4 odd frame: altitude set,
odd slot filled, no position yet. -/
theorem scenario4_step1 (nlCore : ℚ → ℕ) :
    AircraftMod.Aircraft.handle_packet nlCore
        (AircraftMod.Aircraft.new 0x40621D 0)
        (Packet.AdsbPacket.new oddFrameBytes 0) =
      { icao := 0x40621D, callsign := none, altitude := 38000,
        geo_position := none, last_contact := 0,
        last_odd_packet := some posOddRec, last_even_packet := none } := rfl

/-- C3 (amended): ingesting the scenario-4 odd frame and then the even
frame (5 s apart) into a fresh record for ICAO `40621D` yields altitude
38000 ft and a resolved position of exactly (52.25720214843750,
3.829498291015625) ≈ (52.2572, 3.8295).  This value is produced by the
source's longitude variant, which always places the **odd** frame's raw
longitude in the final term; the specification's standard formulation —
the newer (even) frame's raw longitude in the final term — yields
≈ 3.9194 on this vector instead (`claim_C3_counterexample`). -/
theorem claim_C3_scenario4 (nlCore : ℚ → ℕ)
    (hnl : nlCore (428091 / 8192 : ℚ) = 36) :
    (scenario4Aircraft nlCore 0 0 5).altitude = 38000 ∧
      (scenario4Aircraft nlCore 0 0 5).geo_position =
        some { latitude := 428091 / 8192, longitude := 125485 / 32768 } ∧
      |(428091 : ℚ) / 8192 - 522572 / 10000| < 1 / 10000 ∧
      |(125485 : ℚ) / 32768 - 38295 / 10000| < 1 / 10000 := by
  have habs1 : |(428091 : ℚ) / 8192 - 522572 / 10000| < 1 / 10000 := by
    rw [abs_lt]
    constructor <;> norm_num
  have habs2 : |(125485 : ℚ) / 32768 - 38295 / 10000| < 1 / 10000 := by
    rw [abs_lt]
    constructor <;> norm_num
  have hsc : scenario4Aircraft nlCore 0 0 5 =
      AircraftMod.Aircraft.handle_packet nlCore
        { icao := 0x40621D, callsign := none, altitude := 38000,
          geo_position := none, last_contact := 0,
          last_odd_packet := some posOddRec, last_even_packet := none }
        (Packet.AdsbPacket.new evenFrameBytes 5) := by
    unfold scenario4Aircraft
    rw [scenario4_step1 nlCore]
  refine ⟨?_, ?_, habs1, habs2⟩
  · rw [hsc]
    exact rfl
  · rw [hsc]
    have h2 : (AircraftMod.Aircraft.handle_packet nlCore
        { icao := 0x40621D, callsign := none, altitude := 38000,
          geo_position := none, last_contact := 0,
          last_odd_packet := some posOddRec, last_even_packet := none }
        (Packet.AdsbPacket.new evenFrameBytes 5)).geo_position =
        some (AircraftMod.calculate_geographic_position nlCore (93000, 51372)
          (74158, 50194) Msgs.CprFormat.Odd) := rfl
    rw [h2, geo_eval nlCore hnl]

/-- C3 counterexample: the standard longitude formulation of the spec
(`n = NL` on the even-newer branch, the newer frame's raw longitude in
the final term), evaluated at this vector's values (`NL = 36`, newer =
even), gives 64215/16384 = 3.91937... — not within 0.01 of the claimed
3.8295, refuting the parenthetical that the standard formulation
reproduces the reference position; it is the source's odd-raw-longitude
variant that produces 3.8295. -/
theorem claim_C3_counterexample :
    SpecCpr.standard_longitude 36 Msgs.CprFormat.Even 51372 50194 =
        64215 / 16384 ∧
      ¬ |(64215 : ℚ) / 16384 - 38295 / 10000| < 1 / 100 ∧
      |(64215 : ℚ) / 16384 - 39194 / 10000| < 1 / 1000 := by
  refine ⟨?_, by rw [not_lt, le_abs]; left; norm_num, by rw [abs_lt]; constructor <;> norm_num⟩
  simp only [SpecCpr.standard_longitude, qfloor_eq]
  norm_num

/-- C3 witness: the scenario applied with the NL lookup pinned to 36. -/
theorem claim_C3_witness :
    (scenario4Aircraft nl36 0 0 5).altitude = 38000 ∧
      (scenario4Aircraft nl36 0 0 5).geo_position =
        some { latitude := 428091 / 8192, longitude := 125485 / 32768 } ∧
      |(428091 : ℚ) / 8192 - 522572 / 10000| < 1 / 10000 ∧
      |(125485 : ℚ) / 32768 - 38295 / 10000| < 1 / 10000 :=
  claim_C3_scenario4 nl36 rfl

/-- C8 (amended): `handle_packet` sets `last_contact` to the frame's
reception timestamp **only** for airborne-position frames.  An
identification frame for the record's ICAO replaces the callsign but
leaves `last_contact` unchanged, and an unknown frame changes nothing
(`claim_C8_counterexample` shows an ident frame leaving `last_contact`
behind its reception timestamp). -/
theorem claim_C8_last_contact (nlCore : ℚ → ℕ) (a : AircraftMod.Aircraft)
    (pkt : Packet.AdsbPacket) :
    (∀ pos, pkt.icao = a.icao →
      pkt.msg = Msgs.AdsbMsgType.AircraftPosition pos →
      (AircraftMod.Aircraft.handle_packet nlCore a pkt).last_contact =
        pkt.time_processed) ∧
    (∀ id, pkt.icao = a.icao →
      pkt.msg = Msgs.AdsbMsgType.AircraftID id →
      (AircraftMod.Aircraft.handle_packet nlCore a pkt).last_contact =
          a.last_contact ∧
        (AircraftMod.Aircraft.handle_packet nlCore a pkt).callsign =
          some id.callsign) ∧
    (∀ raw_msg, pkt.msg = Msgs.AdsbMsgType.Uknown raw_msg →
      AircraftMod.Aircraft.handle_packet nlCore a pkt = a) := by
  refine ⟨?_, ?_, ?_⟩
  · intro pos hicao hmsg
    unfold AircraftMod.Aircraft.handle_packet
    rw [if_neg (fun h => h hicao), hmsg]
    rcases hfmt : pos.cpr_format with - | -
    · simp only [hfmt]
      rcases hslot : a.last_odd_packet with - | odd_pos <;> simp [hslot]
    · simp only [hfmt]
      rcases hslot : a.last_even_packet with - | even_pos <;> simp [hslot]
  · intro id hicao hmsg
    unfold AircraftMod.Aircraft.handle_packet
    rw [if_neg (fun h => h hicao), hmsg]
    exact ⟨rfl, rfl⟩
  · intro raw_msg hmsg
    unfold AircraftMod.Aircraft.handle_packet
    rw [hmsg]
    by_cases hicao : pkt.icao ≠ a.icao
    · rw [if_pos hicao]
    · rw [if_neg hicao]

/-- C8 counterexample: scenario 1's identification frame, received at
time 5 by a record created at time 0, updates the callsign but leaves
`last_contact` at 0 instead of the claimed reception timestamp 5. -/
theorem claim_C8_counterexample :
    (AircraftMod.Aircraft.handle_packet nl36
        (AircraftMod.Aircraft.new 0x7C6B30 0)
        (Packet.AdsbPacket.new identFrameBytes 5)).last_contact = 0 ∧
      (Packet.AdsbPacket.new identFrameBytes 5).time_processed = 5 ∧
      (0 : ℤ) ≠ 5 := by
  exact ⟨rfl, rfl, by decide⟩

/-- C8 witness: the per-variant behaviour at scenario 1's ident frame. -/
theorem claim_C8_witness :
    (∀ pos, (Packet.AdsbPacket.new identFrameBytes 5).icao =
        (AircraftMod.Aircraft.new 0x7C6B30 0).icao →
      (Packet.AdsbPacket.new identFrameBytes 5).msg =
        Msgs.AdsbMsgType.AircraftPosition pos →
      (AircraftMod.Aircraft.handle_packet nl36
          (AircraftMod.Aircraft.new 0x7C6B30 0)
          (Packet.AdsbPacket.new identFrameBytes 5)).last_contact =
        (Packet.AdsbPacket.new identFrameBytes 5).time_processed) ∧
    (∀ id, (Packet.AdsbPacket.new identFrameBytes 5).icao =
        (AircraftMod.Aircraft.new 0x7C6B30 0).icao →
      (Packet.AdsbPacket.new identFrameBytes 5).msg =
        Msgs.AdsbMsgType.AircraftID id →
      (AircraftMod.Aircraft.handle_packet nl36
          (AircraftMod.Aircraft.new 0x7C6B30 0)
          (Packet.AdsbPacket.new identFrameBytes 5)).last_contact =
          (AircraftMod.Aircraft.new 0x7C6B30 0).last_contact ∧
        (AircraftMod.Aircraft.handle_packet nl36
            (AircraftMod.Aircraft.new 0x7C6B30 0)
            (Packet.AdsbPacket.new identFrameBytes 5)).callsign =
          some id.callsign) ∧
    (∀ raw_msg, (Packet.AdsbPacket.new identFrameBytes 5).msg =
        Msgs.AdsbMsgType.Uknown raw_msg →
      AircraftMod.Aircraft.handle_packet nl36
          (AircraftMod.Aircraft.new 0x7C6B30 0)
          (Packet.AdsbPacket.new identFrameBytes 5) =
        AircraftMod.Aircraft.new 0x7C6B30 0) :=
  claim_C8_last_contact nl36 (AircraftMod.Aircraft.new 0x7C6B30 0)
    (Packet.AdsbPacket.new identFrameBytes 5)
